import Mathlib

/-!
Verification development for the SmartBudget expense pipeline.

We give a shallow embedding of the pipeline's relational state and of the
SQL statements executed by the ETL stages (`etl/ingest.py`, `etl/transform.py`,
`etl/scoring.py`, `etl/recommendations.py`) and the label lifecycle scripts
(`scripts/migrate_tags.py`), against the schema created by `etl/seed.py`.

Modelling conventions:
- SQL DOUBLE columns are modelled as exact rationals (`ℚ`); floating-point
  rounding is idealised.
- Timestamps enter the scoring logic only through
  `DATE_DIFF('month', occurred_at, NOW())`, so `occurred_at` and `NOW()` are
  modelled as month indices (`Int`); the month difference is their difference.
- `abs(hash(...))` (Python's salted string hash) is modelled as an explicit
  function parameter: within one process/run it is a fixed deterministic
  function of its argument.
- Tables are lists of rows; the PRIMARY KEY constraints declared in
  `etl/seed.py` are enforced by the modelled statements: an INSERT or UPDATE
  whose result would duplicate a key, or which supplies NULL for a
  PRIMARY KEY column, fails, and a failed statement leaves the database
  unchanged (statement-level atomicity).  Failure is modelled with `Except`.
- `ON CONFLICT DO NOTHING` / `DO UPDATE` handle duplicate-key conflicts only;
  they do not suppress NOT NULL violations.
-/

namespace SmartBudget

/-- A row of `expenses` (schema in `etl/seed.py`).  `occurred_at` is a month
index; DOUBLE columns are rationals. -/
structure Expense where
  expense_id : Nat
  occurred_at : Int
  product_name : String
  quantity : Option ℚ
  unit_price : Option ℚ
  amount : ℚ
  category_id : Option Int
  notes : Option String
  source_system : Option String
  source_row_id : Option String
deriving Repr, DecidableEq

/-- A row of `labels`. -/
structure Label where
  label_id : Int
  name : String
deriving Repr, DecidableEq

/-- A row of `expense_labels` (many-to-many association,
PRIMARY KEY (expense_id, label_id)). -/
structure ExpenseLabel where
  expense_id : Nat
  label_id : Int
deriving Repr, DecidableEq

/-- A row of `label_weights`; `effective_to = none` is the currently active
weight row. -/
structure LabelWeight where
  label_id : Int
  weight : ℚ
  effective_from : Int
  effective_to : Option Int
deriving Repr, DecidableEq

/-- A row of `recommendations`. -/
structure Recommendation where
  recommendation_id : Nat
  generated_at : Int
  message : String
  confidence : ℚ
  related_expense_id : Nat
deriving Repr, DecidableEq

/-- A row of `raw_source_google` as created by `ingest_csv`: the dataframe
index becomes `id`.  `date` is the parsed calendar date as a month index
(the `strptime` parse is idealised), `price` and `quantity` are the raw
values with `none` for NULL, `item` is NULL-able. -/
structure RawRow where
  id : Nat
  ingested_at : Int
  date : Int
  item : Option String
  category : Option String
  quantity : Option ℚ
  price : Option ℚ
  notes : Option String
deriving Repr, DecidableEq

/-- A row of `category_mappings`: (source_system, raw_value) → category_id. -/
structure CategoryMapping where
  source_system : String
  raw_value : String
  category_id : Int
deriving Repr, DecidableEq

/-- A row of `unmapped_categories`. -/
structure UnmappedCategory where
  raw_value : String
  source_system : String
  first_seen_at : Int
deriving Repr, DecidableEq

/-- The embedded database: the tables touched by the claims. -/
structure DB where
  expenses : List Expense
  labels : List Label
  expense_labels : List ExpenseLabel
  label_weights : List LabelWeight
  category_mappings : List CategoryMapping
  unmapped_categories : List UnmappedCategory
  recommendations : List Recommendation
  raw_source_google : List RawRow
deriving Repr, DecidableEq

instance {ε α : Type} [DecidableEq ε] [DecidableEq α] : DecidableEq (Except ε α) :=
  fun a b =>
  match a, b with
  | .ok x, .ok y =>
    if h : x = y then .isTrue (by rw [h]) else .isFalse (by simp [h])
  | .error x, .error y =>
    if h : x = y then .isTrue (by rw [h]) else .isFalse (by simp [h])
  | .ok _, .error _ => .isFalse (by simp)
  | .error _, .ok _ => .isFalse (by simp)

/-! ### Scoring engine (`etl/scoring.py`, `calculate_scores`)

The `expense_scores` temporary view:

- `scored_labels`: `expense_labels` inner-joined with `expenses` and with
  `label_weights` restricted to `effective_to IS NULL`;
- `priority_scores`: per expense, `SUM(amount * weight * POWER(0.6, month_diff))`;
- the final view divides by the maximum priority score and buckets the
  normalised value.
-/

/-- `POWER(0.6, d)` for an integer month difference `d`, as an exact
rational.  (Stated with `Nat` powers on both sides of zero so that concrete
values compute without `zpow` instances; `decayPow d = (3/5 : ℚ) ^ d` as a
`zpow`.) -/
def decayPow (d : Int) : ℚ :=
  if 0 ≤ d then (3/5 : ℚ) ^ d.natAbs else (5/3 : ℚ) ^ d.natAbs

/-- A row of the `scored_labels` CTE. -/
structure ScoredLabel where
  expense_id : Nat
  amount : ℚ
  weight : ℚ
  month_diff : Int
deriving Repr, DecidableEq

/-- The `scored_labels` CTE: inner join of `expense_labels`, `expenses` and
the currently active `label_weights` rows.  `now` is the month index of
`NOW()`. -/
def scored_labels (now : Int) (db : DB) : List ScoredLabel :=
  db.expense_labels.flatMap fun el =>
    (db.expenses.filter fun e => e.expense_id = el.expense_id).flatMap fun e =>
      (db.label_weights.filter fun lw =>
          lw.label_id = el.label_id ∧ lw.effective_to = none).map fun lw =>
        { expense_id := el.expense_id
          amount := e.amount
          weight := lw.weight
          month_diff := now - e.occurred_at }

/-- The contribution of one `scored_labels` row to the grouped sum. -/
def slContribution (r : ScoredLabel) : ℚ :=
  r.amount * r.weight * decayPow r.month_diff

/-- The expense ids appearing in `scored_labels` (the GROUP BY keys of
`priority_scores`), first occurrence order. -/
def scoredIds (now : Int) (db : DB) : List Nat :=
  ((scored_labels now db).map ScoredLabel.expense_id).dedup

/-- `priority_score` of one expense id: the grouped
`SUM(amount * weight * POWER(0.6, month_diff))`. -/
def priorityScore (now : Int) (db : DB) (eid : Nat) : ℚ :=
  (((scored_labels now db).filter fun r => r.expense_id = eid).map slContribution).sum

/-- The `priority_scores` CTE as association pairs (expense_id, priority_score). -/
def priority_scores (now : Int) (db : DB) : List (Nat × ℚ) :=
  (scoredIds now db).map fun i => (i, priorityScore now db i)

/-- `max_score`: `MAX(priority_score)` over the `priority_scores` CTE
(`none` when the CTE is empty). -/
def maxScore (now : Int) (db : DB) : Option ℚ :=
  ((priority_scores now db).map Prod.snd).max?

/-- The normalised-score bucket of the final view. -/
def scoreBucket (norm : ℚ) : String :=
  if norm > 7/10 then "High" else if norm > 4/10 then "Medium" else "Low"

/-- A row of the `expense_scores` view. -/
structure ScoreRow where
  expense_id : Nat
  priority_score : ℚ
  score_norm : ℚ
  score_priority_bucket : String
deriving Repr, DecidableEq

/-- The `expense_scores` view: one row per grouped expense id, with the
normalised score and its bucket.  The cross join with `max_score` yields no
rows when `priority_scores` is empty, which coincides with this list being
empty. -/
def expense_scores (now : Int) (db : DB) : List ScoreRow :=
  (priority_scores now db).map fun p =>
    let m := (maxScore now db).getD 0
    let norm := p.2 / m
    { expense_id := p.1
      priority_score := p.2
      score_norm := norm
      score_priority_bucket := scoreBucket norm }

/-- The per-expense view of the same sum: the contributions of one expense's
own labels through their currently active weights.  Used to state that the
grouped sum of the view agrees with a sum over the expense's labels. -/
def labelContributions (now : Int) (db : DB) (e : Expense) : List ℚ :=
  (db.expense_labels.filter fun el => el.expense_id = e.expense_id).flatMap fun el =>
    (db.label_weights.filter fun lw =>
        lw.label_id = el.label_id ∧ lw.effective_to = none).map fun lw =>
      e.amount * lw.weight * decayPow (now - e.occurred_at)

/-! ### Recommendation generator (`etl/recommendations.py`, `generate_recommendations`)

The candidate query builds its own `expense_scores` CTE (distinct from the
scoring view): `expenses` LEFT JOINed with `expense_labels` and with
`label_weights` (with **no** `effective_to` filter), scored by
`amount * COALESCE(weight, 1.0)` with no time decay, and quartiled by
`NTILE(4) OVER (ORDER BY score DESC)`; rows of quartile 1 are selected.
For each selected row a recommendation keyed by `abs(hash("rec_" + id))` is
upserted; on conflict only `generated_at` and `confidence` are updated. -/

/-- A row of the recommendation query's CTE before windowing: the LEFT JOIN
produces `weight? = none` exactly when no `label_weights` row was joined. -/
structure RecRow where
  expense_id : Nat
  product_name : String
  amount : ℚ
  weight? : Option ℚ
deriving Repr, DecidableEq

/-- The LEFT JOIN `expenses ⟕ expense_labels ⟕ label_weights` (join on
`label_id` only; the query has no `effective_to IS NULL` condition). -/
def recRows (db : DB) : List RecRow :=
  db.expenses.flatMap fun e =>
    if (db.expense_labels.filter fun el => el.expense_id = e.expense_id).isEmpty then
      [{ expense_id := e.expense_id, product_name := e.product_name,
         amount := e.amount, weight? := none }]
    else
      (db.expense_labels.filter fun el => el.expense_id = e.expense_id).flatMap fun el =>
        if (db.label_weights.filter fun lw => lw.label_id = el.label_id).isEmpty then
          [{ expense_id := e.expense_id, product_name := e.product_name,
             amount := e.amount, weight? := none }]
        else
          (db.label_weights.filter fun lw => lw.label_id = el.label_id).map fun lw =>
            { expense_id := e.expense_id, product_name := e.product_name,
              amount := e.amount, weight? := some lw.weight }

/-- `score = amount * COALESCE(weight, 1.0)` of a CTE row. -/
def recScore (r : RecRow) : ℚ := r.amount * r.weight?.getD 1

/-- Insertion into a list already sorted by `recScore` descending (insertion
after any element of greater score). -/
def insertByScoreDesc (r : RecRow) : List RecRow → List RecRow
  | [] => [r]
  | x :: xs => if recScore x < recScore r then r :: x :: xs
               else x :: insertByScoreDesc r xs

/-- `ORDER BY score DESC` (tie order within equal scores is unspecified in
SQL; this model fixes one). -/
def sortByScoreDesc (rows : List RecRow) : List RecRow :=
  rows.foldr insertByScoreDesc []

/-- The number of rows `NTILE(4)` places in tile 1 out of `n` rows:
`n / 4`, plus one of the `n % 4` remainder rows (remainder rows go to the
first tiles). -/
def ntile4Tile1Count (n : Nat) : Nat := n / 4 + min (n % 4) 1

/-- The rows with `score_priority_bucket_num = 1`: the top
`ntile4Tile1Count n` rows in descending score order. -/
def highPriorityRows (db : DB) : List RecRow :=
  let rows := recRows db
  (sortByScoreDesc rows).take (ntile4Tile1Count rows.length)

/-- Two-decimal currency formatting of the Python `f"{amount:.2f}"`
(rounding of the binary double is idealised to rounding the rational). -/
def fmt2 (q : ℚ) : String :=
  let c : Int := Int.floor (q * 100 + 1/2)
  let frac := (c % 100).toNat
  toString (c / 100) ++ "." ++ (if frac < 10 then "0" else "") ++ toString frac

/-- The templated recommendation message. -/
def recMessage (product : String) (amount : ℚ) : String :=
  "High priority spending detected on \x27" ++ product ++ "\x27 (Amount: $" ++
    fmt2 amount ++ "). Consider reviewing this expense."

/-- The recommendation row built for one selected CTE row.  `hash` models
`abs(hash("rec_" + str(expense_id)))`. -/
def mkRecommendation (hash : Nat → Nat) (now : Int) (r : RecRow) : Recommendation :=
  { recommendation_id := hash r.expense_id
    generated_at := now
    message := recMessage r.product_name r.amount
    confidence := recScore r
    related_expense_id := r.expense_id }

/-- `INSERT ... ON CONFLICT (recommendation_id) DO UPDATE SET generated_at =
excluded.generated_at, confidence = excluded.confidence`. -/
def upsertRecommendation (recs : List Recommendation) (r : Recommendation) :
    List Recommendation :=
  if recs.any fun old => old.recommendation_id = r.recommendation_id then
    recs.map fun old =>
      if old.recommendation_id = r.recommendation_id then
        { old with generated_at := r.generated_at, confidence := r.confidence }
      else old
  else recs ++ [r]

/-- `generate_recommendations`: upsert one recommendation per quartile-1 row.
The query performs no normalisation and no division, so the function is
total (it cannot raise). -/
def generate_recommendations (hash : Nat → Nat) (now : Int) (db : DB) : DB :=
  let inserts := (highPriorityRows db).map (mkRecommendation hash now)
  { db with recommendations := inserts.foldl upsertRecommendation db.recommendations }

/-! ### Label lifecycle (`scripts/migrate_tags.py`)

`_get_label_id` raises `ValueError("Label '<name>' not found.")` for an
unknown name.  `merge_labels` resolves the target, then every source, then
runs one UPDATE repointing the source associations and one DELETE removing
the source labels.  The UPDATE re-checks the `(expense_id, label_id)`
primary key: if the repointed table would contain a duplicate pair, the
statement fails and (statement atomicity) nothing changes.  The id lists
are spliced into the SQL as Python tuple literals, so an empty source list
produces `IN ()`, which does not parse.

`split_label` first runs `INSERT INTO labels (name) VALUES (?) ON CONFLICT
DO NOTHING`.  The `labels` table has `label_id BIGINT PRIMARY KEY` with no
default and the INSERT supplies no `label_id`, so the inserted row has a
NULL primary key and the statement fails with a NOT NULL constraint error
(`ON CONFLICT` handles only duplicate-key conflicts); `source_label` is
never looked up at all. -/

/-- The message of `_get_label_id`'s `ValueError`. -/
def labelNotFoundMsg (name : String) : String :=
  "Label \x27" ++ name ++ "\x27 not found."

/-- `_get_label_id`: resolve a label name or raise. -/
def get_label_id (db : DB) (name : String) : Except String Int :=
  match db.labels.find? fun l => l.name = name with
  | some l => .ok l.label_id
  | none => .error (labelNotFoundMsg name)

/-- The key multiset of the association table, for the primary-key check. -/
def elKeys (els : List ExpenseLabel) : List (Nat × Int) :=
  els.map fun el => (el.expense_id, el.label_id)

/-- `merge_labels db sources target`. -/
def merge_labels (db : DB) (sources : List String) (target : String) :
    Except String DB := do
  let tid ← get_label_id db target
  let sids ← sources.mapM (get_label_id db)
  if sources.isEmpty then
    throw "Parser Error: syntax error at or near \x22)\x22"
  let updated := db.expense_labels.map fun el =>
    if el.label_id ∈ sids then { el with label_id := tid } else el
  if (elKeys updated).Nodup then
    pure { db with
      expense_labels := updated
      labels := db.labels.filter fun l => l.label_id ∉ sids }
  else
    throw "Constraint Error: Duplicate key violates primary key constraint of expense_labels"

/-- The NOT NULL failure of `split_label`'s label-creation INSERT. -/
def splitInsertError : String :=
  "Constraint Error: NOT NULL constraint failed: labels.label_id"

/-- `INSERT INTO labels (name) VALUES (?) ON CONFLICT DO NOTHING`: the
inserted row carries NULL in the `label_id` PRIMARY KEY column (the INSERT
names no id column and the table has no default), so the statement fails
with a NOT NULL constraint violation regardless of any name conflict. -/
def insertLabelNameOnly (db : DB) (name : String) : Except String DB :=
  .error splitInsertError

/-- `split_label db source new ids`: create-the-new-label, resolve its id,
then repoint the named expenses.  `source` is used only in the final log
line and is never looked up.  The first statement always fails (see
`insertLabelNameOnly`), so the later steps are unreachable. -/
def split_label (db : DB) (source new_name : String)
    (expense_ids_to_move : List Nat) : Except String DB := do
  let db1 ← insertLabelNameOnly db new_name
  let nid ← get_label_id db1 new_name
  if expense_ids_to_move.isEmpty then
    throw "Parser Error: syntax error at or near \x22)\x22"
  let updated := db1.expense_labels.map fun el =>
    if el.expense_id ∈ expense_ids_to_move then { el with label_id := nid } else el
  if (elKeys updated).Nodup then
    pure { db1 with expense_labels := updated }
  else
    throw "Constraint Error: Duplicate key violates primary key constraint of expense_labels"

/-- `rename_label db old new`: an unconditional UPDATE by name (no
existence check; included for completeness of the lifecycle model). -/
def rename_label (db : DB) (old_name new_name : String) : DB :=
  { db with labels := db.labels.map fun l =>
      if l.name = old_name then { l with name := new_name } else l }

/-! ### Ingestion and transform (`etl/ingest.py`, `etl/transform.py`)

`ingest_csv` replaces `raw_source_google` wholesale (`CREATE OR REPLACE
TABLE`), with `id` the dataframe index (0-based row position) and
`ingested_at` the wall-clock time of the run.

`transform_and_load` then runs three statements: the unmapped-category
audit insert (`ON CONFLICT DO NOTHING`), the expense upsert keyed by
`abs(hash(raw.id::VARCHAR))` (`ON CONFLICT (expense_id) DO UPDATE SET
occurred_at, product_name, amount, category_id`), and the two
category-driven label inserts (`ON CONFLICT DO NOTHING`).  A NULL
`raw.price` makes `amount` NULL and a NULL `raw.item` makes `product_name`
NULL, violating the NOT NULL columns of `expenses` and failing the whole
statement.  The multi-row upsert is modelled row by row in table order. -/

/-- A CSV input row before ingestion assigns ids (`date` already parsed to
a month index, `price`/`quantity` already to numbers, as elsewhere). -/
structure CsvRow where
  date : Int
  item : Option String
  category : Option String
  quantity : Option ℚ
  price : Option ℚ
  notes : Option String
deriving Repr, DecidableEq

/-- `ingest_csv`: replace `raw_source_google` with the input rows, id-ed by
position. -/
def ingest_csv (input : List CsvRow) (now : Int) (db : DB) : DB :=
  { db with raw_source_google := input.enum.map fun p =>
      { id := p.1
        ingested_at := now
        date := p.2.date
        item := p.2.item
        category := p.2.category
        quantity := p.2.quantity
        price := p.2.price
        notes := p.2.notes } }

/-- The LEFT JOIN against `category_mappings` for source system
`google_sheets` (a NULL raw category joins nothing). -/
def lookupCategory (db : DB) (raw : Option String) : Option Int :=
  raw.bind fun v =>
    (db.category_mappings.find? fun cm =>
      cm.source_system = "google_sheets" ∧ cm.raw_value = v).map CategoryMapping.category_id

/-- The distinct non-NULL raw category values with no mapping (the GROUP BY
keys of the audit insert), in first-occurrence order. -/
def unmappedValues (db : DB) : List String :=
  (db.raw_source_google.filterMap fun r =>
    match r.category with
    | some c =>
      if db.category_mappings.any fun cm =>
          cm.source_system = "google_sheets" ∧ cm.raw_value = c then none
      else some c
    | none => none).dedup

/-- `MIN(raw.ingested_at)` over the rows of one raw category value. -/
def minIngestedAt (db : DB) (c : String) : Int :=
  (((db.raw_source_google.filter fun r => r.category = some c).map
      RawRow.ingested_at).min?).getD 0

/-- The unmapped-category audit insert, `ON CONFLICT (raw_value,
source_system) DO NOTHING`. -/
def insertUnmapped (db : DB) : DB :=
  { db with unmapped_categories :=
      (unmappedValues db).foldl (fun acc c =>
        if acc.any fun u => u.raw_value = c ∧ u.source_system = "google_sheets" then acc
        else acc ++ [{ raw_value := c, source_system := "google_sheets",
                       first_seen_at := minIngestedAt db c }]) db.unmapped_categories }

/-- The expense row the transform SELECT computes from a raw row with
price `p` and item `it`: `quantity` is the literal `1`, `unit_price` and
`amount` are both `CAST(raw.price AS DOUBLE)`; the raw `quantity` column is
not read. -/
def transformedExpense (hashE : Nat → Nat) (db : DB) (r : RawRow)
    (p : ℚ) (it : String) : Expense :=
  { expense_id := hashE r.id
    occurred_at := r.date
    product_name := it
    quantity := some 1
    unit_price := some p
    amount := p
    category_id := lookupCategory db r.category
    notes := r.notes
    source_system := some "google_sheets"
    source_row_id := some (toString r.id) }

/-- The expense row computed from one raw row by the transform SELECT.  A
NULL price or item makes `amount` or `product_name` NULL, violating a NOT
NULL column of `expenses` and failing the statement. -/
def rawToExpense (hashE : Nat → Nat) (db : DB) (r : RawRow) : Except String Expense :=
  match r.price, r.item with
  | some p, some it => .ok (transformedExpense hashE db r p it)
  | none, _ => .error "Constraint Error: NOT NULL constraint failed: expenses.amount"
  | some _, none =>
    .error "Constraint Error: NOT NULL constraint failed: expenses.product_name"

/-- The `DO UPDATE SET` clause of the expense upsert: only `occurred_at`,
`product_name`, `amount` and `category_id` are overwritten. -/
def applyExpenseUpdate (x old : Expense) : Expense :=
  { old with occurred_at := x.occurred_at, product_name := x.product_name,
             amount := x.amount, category_id := x.category_id }

/-- `ON CONFLICT (expense_id) DO UPDATE SET occurred_at = excluded.occurred_at,
product_name = excluded.product_name, amount = excluded.amount,
category_id = excluded.category_id` for one computed row. -/
def upsertExpense (es : List Expense) (x : Expense) : List Expense :=
  if es.any fun old => old.expense_id = x.expense_id then
    es.map fun old =>
      if old.expense_id = x.expense_id then applyExpenseUpdate x old else old
  else es ++ [x]

/-- One category-driven label insert, `ON CONFLICT DO NOTHING` on the
`(expense_id, label_id)` primary key. -/
def insertAssociationIfAbsent (els : List ExpenseLabel) (p : ExpenseLabel) :
    List ExpenseLabel :=
  if els.any fun q => q.expense_id = p.expense_id ∧ q.label_id = p.label_id then els
  else els ++ [p]

/-- The category-driven label assignment (third transform statement):
label 101 (essential) for category 1 (Groceries), label 102 (discretionary)
for category 2 (Dining), duplicates skipped. -/
def assignDefaultLabels (db : DB) : DB :=
  let els1 := (db.expenses.filter fun e => e.category_id = some 1).foldl
    (fun acc e => insertAssociationIfAbsent acc { expense_id := e.expense_id, label_id := 101 })
    db.expense_labels
  let els2 := (db.expenses.filter fun e => e.category_id = some 2).foldl
    (fun acc e => insertAssociationIfAbsent acc { expense_id := e.expense_id, label_id := 102 })
    els1
  { db with expense_labels := els2 }

/-- `transform_and_load`: audit insert, expense upsert, label assignment. -/
def transform_and_load (hashE : Nat → Nat) (db : DB) : Except String DB := do
  let rows ← (insertUnmapped db).raw_source_google.mapM
    (rawToExpense hashE (insertUnmapped db))
  pure (assignDefaultLabels
    { insertUnmapped db with
      expenses := rows.foldl upsertExpense (insertUnmapped db).expenses })

/-- One ingestion-plus-transform run. -/
def ingestTransform (hashE : Nat → Nat) (input : List CsvRow) (now : Int)
    (db : DB) : Except String DB :=
  transform_and_load hashE (ingest_csv input now db)

/-! ### Invariants used in statements -/

/-- No duplicate `expense_id` in `expenses` (its primary key). -/
def expenseKeysNodup (db : DB) : Prop :=
  (db.expenses.map Expense.expense_id).Nodup

/-- No duplicate `(expense_id, label_id)` pair in `expense_labels` (its
primary key). -/
def elPairsNodup (db : DB) : Prop :=
  (elKeys db.expense_labels).Nodup

/-- Input rows on which the transform insert satisfies the NOT NULL
constraints of `expenses`. -/
def goodInput (input : List CsvRow) : Prop :=
  ∀ r ∈ input, r.price ≠ none ∧ r.item ≠ none

instance (db : DB) : Decidable (expenseKeysNodup db) := by
  unfold expenseKeysNodup; infer_instance

instance (db : DB) : Decidable (elPairsNodup db) := by
  unfold elPairsNodup; infer_instance

instance (input : List CsvRow) : Decidable (goodInput input) := by
  unfold goodInput; infer_instance

/-! ### Concrete instances used by individual claims -/

/-- An empty database. -/
def emptyDB : DB :=
  { expenses := [], labels := [], expense_labels := [], label_weights := [],
    category_mappings := [], unmapped_categories := [], recommendations := [],
    raw_source_google := [] }

/-- Expense A of the spec's concrete scoring scenario: amount 100, occurred
0 months ago. -/
def expenseA : Expense :=
  { expense_id := 1, occurred_at := 0, product_name := "A", quantity := none,
    unit_price := none, amount := 100, category_id := none, notes := none,
    source_system := none, source_row_id := none }

/-- Expense B of the scenario: amount 100, occurred 2 months ago. -/
def expenseB : Expense :=
  { expense_id := 2, occurred_at := -2, product_name := "B", quantity := none,
    unit_price := none, amount := 100, category_id := none, notes := none,
    source_system := none, source_row_id := none }

/-- The scenario database: only A and B, one shared label whose currently
active weight is 1.5 (scored at `now = 0`). -/
def dbAB : DB :=
  { emptyDB with
    expenses := [expenseA, expenseB]
    labels := [{ label_id := 101, name := "essential" }]
    expense_labels := [{ expense_id := 1, label_id := 101 },
                       { expense_id := 2, label_id := 101 }]
    label_weights := [{ label_id := 101, weight := 3/2, effective_from := -10,
                        effective_to := none }] }

/-- An expense whose only label will carry no currently active weight. -/
def expenseNoActive : Expense :=
  { expense_id := 1, occurred_at := 0, product_name := "X", quantity := none,
    unit_price := none, amount := 100, category_id := none, notes := none,
    source_system := none, source_row_id := none }

/-- The closed (expired) weight row of label 201. -/
def staleWeight : LabelWeight :=
  { label_id := 201, weight := 2, effective_from := -10, effective_to := some (-1) }

/-- A database with one expense whose only label has no currently active
weight: its single weight row is closed (`effective_to` set). -/
def dbNoActive : DB :=
  { emptyDB with
    expenses := [expenseNoActive]
    labels := [{ label_id := 201, name := "stale" }]
    expense_labels := [{ expense_id := 1, label_id := 201 }]
    label_weights := [staleWeight] }

/-- An expense whose only label has no weight rows at all. -/
def expenseWeightless : Expense :=
  { expense_id := 6, occurred_at := 0, product_name := "wless", quantity := none,
    unit_price := none, amount := 11, category_id := none, notes := none,
    source_system := none, source_row_id := none }

/-- A database where expense 6 carries label 301, and `label_weights` is
empty. -/
def dbWeightless : DB :=
  { emptyDB with
    expenses := [expenseWeightless]
    labels := [{ label_id := 301, name := "nw" }]
    expense_labels := [{ expense_id := 6, label_id := 301 }]
    label_weights := [] }

/-- The join condition under which the scoring view carries a row for an
expense id: some association of that id joins an existing expense and a
currently active weight row. -/
def hasActiveScoredJoin (db : DB) (eid : Nat) : Prop :=
  ∃ el ∈ db.expense_labels, el.expense_id = eid ∧
    (∃ ex ∈ db.expenses, ex.expense_id = eid) ∧
    ∃ lw ∈ db.label_weights, lw.label_id = el.label_id ∧ lw.effective_to = none

/-- An expense with no labels at all, for exercising the COALESCE path of
the recommendation query. -/
def lonelyExpense : Expense :=
  { expense_id := 3, occurred_at := 0, product_name := "lonely", quantity := none,
    unit_price := none, amount := 7, category_id := none, notes := none,
    source_system := none, source_row_id := none }

/-- A database holding only `lonelyExpense`. -/
def dbLonely : DB := { emptyDB with expenses := [lonelyExpense] }

/-- A two-month-old expense with one label of active weight 1.5: its
time-decayed priority score is 54, while the recommendation query's
undecayed score is 150. -/
def dbDecayed : DB :=
  { emptyDB with
    expenses := [{ expense_id := 4, occurred_at := -2, product_name := "old",
                   quantity := none, unit_price := none, amount := 100,
                   category_id := none, notes := none, source_system := none,
                   source_row_id := none }]
    labels := [{ label_id := 104, name := "w" }]
    expense_labels := [{ expense_id := 4, label_id := 104 }]
    label_weights := [{ label_id := 104, weight := 3/2, effective_from := -10,
                        effective_to := none }] }

/-- The CTE row the recommendation query derives for `dbDecayed`. -/
def rowDecayed : RecRow :=
  { expense_id := 4, product_name := "old", amount := 100, weight? := some (3/2) }

/-- One expense of amount 0 and no labels: every expense has score 0. -/
def dbZero : DB :=
  { emptyDB with
    expenses := [{ expense_id := 5, occurred_at := 0, product_name := "zero",
                   quantity := none, unit_price := none, amount := 0,
                   category_id := none, notes := none, source_system := none,
                   source_row_id := none }] }

/-- Labels a, b, c where expense 10 holds both a and c: repointing a's
association onto c collides with the existing (10, c) pair. -/
def dbMergeOverlapTarget : DB :=
  { emptyDB with
    labels := [{ label_id := 1, name := "a" }, { label_id := 2, name := "b" },
               { label_id := 3, name := "c" }]
    expense_labels := [{ expense_id := 10, label_id := 1 },
                       { expense_id := 10, label_id := 3 }] }

/-- Labels a, b, c where expense 30 holds both sources a and b: repointing
both onto c produces the (30, c) pair twice. -/
def dbMergeOverlapSources : DB :=
  { emptyDB with
    labels := [{ label_id := 1, name := "a" }, { label_id := 2, name := "b" },
               { label_id := 3, name := "c" }]
    expense_labels := [{ expense_id := 30, label_id := 1 },
                       { expense_id := 30, label_id := 2 }] }

/-- Labels x, y, t with pairwise disjoint associations: a merge of x and y
into t succeeds. -/
def dbMergeOk : DB :=
  { emptyDB with
    labels := [{ label_id := 1, name := "x" }, { label_id := 2, name := "y" },
               { label_id := 3, name := "t" }]
    expense_labels := [{ expense_id := 20, label_id := 1 },
                       { expense_id := 21, label_id := 2 },
                       { expense_id := 22, label_id := 3 }] }

/-- Labels a, b, c with pairwise disjoint associations, for the merge-union
witness. -/
def dbMergeDisjoint : DB :=
  { emptyDB with
    labels := [{ label_id := 1, name := "a" }, { label_id := 2, name := "b" },
               { label_id := 3, name := "c" }]
    expense_labels := [{ expense_id := 40, label_id := 1 },
                       { expense_id := 41, label_id := 2 },
                       { expense_id := 42, label_id := 3 }] }

/-- A database holding a label b but no label a. -/
def dbSplitNoSource : DB :=
  { emptyDB with
    labels := [{ label_id := 7, name := "b" }]
    expense_labels := [{ expense_id := 1, label_id := 7 }] }

/-- A database as left by a previous transform of a row priced 5 (raw id 0,
identity hash): the stored expense has `unit_price = amount = 5`, with a
NULL quantity as the record API would leave it. -/
def dbPriorRun : DB :=
  { emptyDB with
    expenses := [{ expense_id := 0, occurred_at := 0, product_name := "w",
                   quantity := none, unit_price := some 5, amount := 5,
                   category_id := none, notes := none,
                   source_system := some "google_sheets",
                   source_row_id := some "0" }] }

/-- The same source row re-ingested with its price changed from 5 to 7. -/
def inputChangedPrice : List CsvRow :=
  [{ date := 0, item := some "w", category := none, quantity := some 2,
     price := some 7, notes := none }]

/-- A one-row input for exercising a full ingest-and-transform run. -/
def inputOneRow : List CsvRow :=
  [{ date := 0, item := some "i", category := none, quantity := some 1,
     price := some 4, notes := none }]

/-- A raw row with a source quantity of 3, for checking that the transform
ignores the source quantity column. -/
def rawRowW : RawRow :=
  { id := 9, ingested_at := 0, date := 0, item := some "n", category := none,
    quantity := some 3, price := some 2, notes := none }

/-! ## Theorems -/

/-- Bind of a successful `Except` computation. -/
theorem except_bind_ok {α β : Type} (a : α) (f : α → Except String β) :
    (Except.ok a >>= f) = f a := rfl

/-- Bind of a failed `Except` computation. -/
theorem except_bind_err {α β : Type} (m : String) (f : α → Except String β) :
    ((Except.error m : Except String α) >>= f) = .error m := rfl

/-- `_get_label_id` fails with the not-found message when no label carries
the name. -/
theorem get_label_id_err (db : DB) (name : String)
    (h : ¬ ∃ l ∈ db.labels, l.name = name) :
    get_label_id db name = .error (labelNotFoundMsg name) := by
  unfold get_label_id
  cases hf : db.labels.find? fun l => l.name = name with
  | none => rfl
  | some l =>
    exact absurd ⟨l, List.mem_of_find?_eq_some hf,
      by simpa using List.find?_some hf⟩ h

/-- Resolving a list of sources fails when any of them is missing. -/
theorem mapM_get_label_id_error (db : DB) :
    ∀ sources : List String, (∃ s ∈ sources, ¬ ∃ l ∈ db.labels, l.name = s) →
      ∃ m, sources.mapM (get_label_id db) = .error m := by
  intro sources
  induction sources with
  | nil =>
    rintro ⟨s, hs, _⟩
    cases hs
  | cons s t ih =>
    rintro ⟨s2, hs2, hmiss⟩
    rcases List.mem_cons.mp hs2 with rfl | hmem
    · exact ⟨labelNotFoundMsg s2,
        by rw [List.mapM_cons, get_label_id_err db s2 hmiss]; rfl⟩
    · cases hget : get_label_id db s with
      | error m => exact ⟨m, by rw [List.mapM_cons, hget]; rfl⟩
      | ok i =>
        obtain ⟨m, hm⟩ := ih ⟨s2, hmem, hmiss⟩
        exact ⟨m, by rw [List.mapM_cons, hget, except_bind_ok, hm]; rfl⟩

/-- `merge_labels` succeeds exactly as the repointed state when every name
resolves, the source list is nonempty and the repointed association table
keeps its primary key. -/
theorem merge_labels_ok (db : DB) (sources : List String) (target : String)
    (tid : Int) (sids : List Int)
    (htid : get_label_id db target = .ok tid)
    (hsids : sources.mapM (get_label_id db) = .ok sids)
    (hne : sources ≠ [])
    (hnodup : (elKeys (db.expense_labels.map fun el =>
        if el.label_id ∈ sids then { el with label_id := tid } else el)).Nodup) :
    merge_labels db sources target = .ok
      { db with
        expense_labels := db.expense_labels.map fun el =>
          if el.label_id ∈ sids then { el with label_id := tid } else el
        labels := db.labels.filter fun l => l.label_id ∉ sids } := by
  obtain ⟨s, ss, rfl⟩ := List.exists_cons_of_ne_nil hne
  unfold merge_labels
  rw [htid, except_bind_ok, hsids, except_bind_ok]
  simp only [List.isEmpty_cons, Bool.false_eq_true, if_false]
  rw [if_pos hnodup]
  rfl

/-- `merge_labels` fails with the duplicate-key constraint error when the
repointed association table would break its primary key. -/
theorem merge_labels_conflict (db : DB) (sources : List String) (target : String)
    (tid : Int) (sids : List Int)
    (htid : get_label_id db target = .ok tid)
    (hsids : sources.mapM (get_label_id db) = .ok sids)
    (hne : sources ≠ [])
    (hnodup : ¬ (elKeys (db.expense_labels.map fun el =>
        if el.label_id ∈ sids then { el with label_id := tid } else el)).Nodup) :
    merge_labels db sources target =
      .error "Constraint Error: Duplicate key violates primary key constraint of expense_labels" := by
  obtain ⟨s, ss, rfl⟩ := List.exists_cons_of_ne_nil hne
  unfold merge_labels
  rw [htid, except_bind_ok, hsids, except_bind_ok]
  simp only [List.isEmpty_cons, Bool.false_eq_true, if_false]
  rw [if_neg hnodup]
  rfl

/-- Under the `expenses` primary key, filtering `expenses` by the key of a
member returns exactly that member. -/
theorem filter_key_singleton {l : List Expense} {e : Expense}
    (hnd : (l.map Expense.expense_id).Nodup) (he : e ∈ l) :
    l.filter (fun x => x.expense_id = e.expense_id) = [e] := by
  induction l with
  | nil => cases he
  | cons a t ih =>
    simp only [List.map_cons, List.nodup_cons] at hnd
    rcases List.mem_cons.mp he with rfl | hmem
    · have ht : t.filter (fun x => x.expense_id = e.expense_id) = [] := by
        refine List.filter_eq_nil.mpr ?_
        intro x hx
        simp only [decide_eq_true_eq]
        intro hxe
        exact hnd.1 (hxe ▸ List.mem_map_of_mem Expense.expense_id hx)
      simp [List.filter_cons, ht]
    · have hne : ¬ a.expense_id = e.expense_id := by
        intro h
        exact hnd.1 (h ▸ List.mem_map_of_mem Expense.expense_id hmem)
      simp only [List.filter_cons, decide_eq_true_eq, hne, if_false]
      exact ih hnd.2 hmem

/-- The grouped sum of the `scored_labels` CTE restricted to one expense,
expressed as a sum over that expense's own labels. -/
theorem scoredSum_aux (now : Int) (db : DB) (e : Expense)
    (hsing : db.expenses.filter (fun x => x.expense_id = e.expense_id) = [e]) :
    ∀ els : List ExpenseLabel,
      (((els.flatMap fun el =>
            (db.expenses.filter fun x => x.expense_id = el.expense_id).flatMap fun ex =>
              (db.label_weights.filter fun lw =>
                  lw.label_id = el.label_id ∧ lw.effective_to = none).map fun lw =>
                ({ expense_id := el.expense_id, amount := ex.amount,
                   weight := lw.weight, month_diff := now - ex.occurred_at } :
                  ScoredLabel)).filter fun r => r.expense_id = e.expense_id).map
          slContribution).sum =
      ((els.filter fun el => el.expense_id = e.expense_id).flatMap fun el =>
          (db.label_weights.filter fun lw =>
              lw.label_id = el.label_id ∧ lw.effective_to = none).map fun lw =>
            e.amount * lw.weight * decayPow (now - e.occurred_at)).sum := by
  intro els
  induction els with
  | nil => rfl
  | cons el t ih =>
    rw [List.flatMap_cons, List.filter_append, List.map_append, List.sum_append, ih,
        List.filter_cons]
    by_cases h : el.expense_id = e.expense_id
    · simp only [h, hsing, decide_eq_true_eq, eq_self_iff_true, if_true,
        List.flatMap_cons, List.flatMap_nil, List.append_nil, List.filter_map,
        List.map_map]
      rw [List.sum_append]
      congr 1
      simp [Function.comp_def, slContribution]
    · have hnil :
          (((db.expenses.filter fun x => x.expense_id = el.expense_id).flatMap fun ex =>
              (db.label_weights.filter fun lw =>
                  lw.label_id = el.label_id ∧ lw.effective_to = none).map fun lw =>
                ({ expense_id := el.expense_id, amount := ex.amount,
                   weight := lw.weight, month_diff := now - ex.occurred_at } :
                  ScoredLabel)).filter fun r => r.expense_id = e.expense_id) = [] := by
        refine List.filter_eq_nil.mpr ?_
        intro r hr
        simp only [List.mem_flatMap, List.mem_map] at hr
        obtain ⟨ex, _, lw, _, rfl⟩ := hr
        simp only [decide_eq_true_eq]
        exact h
      simp only [hnil, decide_eq_true_eq, h, if_false, List.map_nil, List.sum_nil,
        zero_add]

/-- The grouped `priority_score` of an existing expense equals the sum of
its own labels' contributions through their currently active weights. -/
theorem priorityScore_eq_sum_labelContributions (now : Int) (db : DB) (e : Expense)
    (hnd : expenseKeysNodup db) (he : e ∈ db.expenses) :
    priorityScore now db e.expense_id = (labelContributions now db e).sum := by
  have hsing := filter_key_singleton hnd he
  unfold priorityScore labelContributions scored_labels
  exact scoredSum_aux now db e hsing db.expense_labels

/-- C1: for every expense of the database, the scoring view's grouped
`priority_score` equals the sum over the expense's labels of
`amount * active_weight * 0.6^age_months`, and every view row's
`score_norm` is its `priority_score` divided by the maximum
`priority_score`; in the spec's two-expense scenario, A has
`priority_score` 150 with `score_norm` 1 and bucket High, and B has
`priority_score` 54 with `score_norm` 9/25 = 0.36 and bucket Low. -/
theorem C1_scoring_view_decayed_sum (now : Int) (db : DB) (e : Expense)
    (hnd : expenseKeysNodup db) (he : e ∈ db.expenses) :
    priorityScore now db e.expense_id = (labelContributions now db e).sum ∧
    (∀ row ∈ expense_scores now db,
        row.score_norm = row.priority_score / (maxScore now db).getD 0) ∧
    expense_scores 0 dbAB =
      [{ expense_id := 1, priority_score := 150, score_norm := 1,
         score_priority_bucket := "High" },
       { expense_id := 2, priority_score := 54, score_norm := 9/25,
         score_priority_bucket := "Low" }] := by
  refine ⟨priorityScore_eq_sum_labelContributions now db e hnd he, ?_, ?_⟩
  · intro row hrow
    unfold expense_scores at hrow
    obtain ⟨p, _, rfl⟩ := List.mem_map.mp hrow
    rfl
  · norm_num [expense_scores, priority_scores, maxScore, scoredIds, priorityScore,
      scored_labels, slContribution, decayPow, scoreBucket, dbAB, emptyDB, expenseA,
      expenseB, List.max?, max_def, List.dedup]

/-- Witness for C1 at the scenario database and expense A. -/
theorem C1_scoring_view_decayed_sum_witness :
    expenseKeysNodup dbAB ∧ expenseA ∈ dbAB.expenses ∧
    priorityScore 0 dbAB expenseA.expense_id = (labelContributions 0 dbAB expenseA).sum := by
  have h1 : expenseKeysNodup dbAB := by decide
  have h2 : expenseA ∈ dbAB.expenses := List.mem_cons_self _ _
  exact ⟨h1, h2, (C1_scoring_view_decayed_sum 0 dbAB expenseA h1 h2).1⟩

/-- C2 counterexample: `dbNoActive` holds expense 1, whose only label has a
single weight row with `effective_to` set (no currently active weight).
The claim would give it a priority score through a neutral weight of 1.0,
but the scoring view's inner join against
`label_weights ... WHERE effective_to IS NULL` drops it: the view is
empty. -/
theorem C2_counterexample :
    dbNoActive.expenses.map Expense.expense_id = [1] ∧
    (dbNoActive.label_weights.filter fun lw => lw.effective_to = none) = [] ∧
    expense_scores 0 dbNoActive = [] := by
  exact ⟨rfl, rfl, by decide⟩

/-- C2 amended: the scoring view carries a row for an expense id exactly
when some association of that id joins an existing expense and a currently
active weight row; an expense with no such join is omitted from the view
entirely.  The implicit neutral weight 1.0 appears only in the
recommendation query's `COALESCE(lw.weight, 1.0)`, which applies exactly
when no weight row joins at all: an expense with no label, or with a label
having no weight rows, is scored there as `amount * 1` through a NULL
joined weight — while a label having only expired weight rows still joins
those rows (the query has no `effective_to` filter), so their weights are
used rather than 1.0. -/
theorem C2_view_requires_active_weight :
    (∀ now : Int, ∀ db : DB, ∀ eid : Nat,
        eid ∈ (expense_scores now db).map ScoreRow.expense_id ↔
          hasActiveScoredJoin db eid) ∧
    (∀ db : DB, ∀ e : Expense, e ∈ db.expenses →
        (db.expense_labels.filter fun el => el.expense_id = e.expense_id) = [] →
        ({ expense_id := e.expense_id, product_name := e.product_name,
           amount := e.amount, weight? := none } : RecRow) ∈ recRows db ∧
        recScore { expense_id := e.expense_id, product_name := e.product_name,
                   amount := e.amount, weight? := none } = e.amount * 1) ∧
    (∀ db : DB, ∀ e : Expense, ∀ el : ExpenseLabel, e ∈ db.expenses →
        el ∈ db.expense_labels → el.expense_id = e.expense_id →
        (db.label_weights.filter fun lw => lw.label_id = el.label_id) = [] →
        ({ expense_id := e.expense_id, product_name := e.product_name,
           amount := e.amount, weight? := none } : RecRow) ∈ recRows db ∧
        recScore { expense_id := e.expense_id, product_name := e.product_name,
                   amount := e.amount, weight? := none } = e.amount * 1) ∧
    (∀ db : DB, ∀ e : Expense, ∀ el : ExpenseLabel, ∀ lw : LabelWeight,
        e ∈ db.expenses → el ∈ db.expense_labels → el.expense_id = e.expense_id →
        lw ∈ db.label_weights → lw.label_id = el.label_id →
        ({ expense_id := e.expense_id, product_name := e.product_name,
           amount := e.amount, weight? := some lw.weight } : RecRow) ∈ recRows db) := by
  refine ⟨?_, ?_, ?_, ?_⟩
  · intro now db eid
    unfold expense_scores priority_scores scoredIds scored_labels hasActiveScoredJoin
    simp only [List.map_map, List.mem_map, Function.comp_def, List.mem_dedup,
      List.mem_flatMap, List.mem_filter, decide_eq_true_eq]
    constructor
    · rintro ⟨i, ⟨r, ⟨el, hel, ex, ⟨hex, hexid⟩, lw, ⟨hlw, hlid, heff⟩, rfl⟩, rfl⟩, rfl⟩
      exact ⟨el, hel, rfl, ⟨ex, hex, hexid⟩, lw, hlw, hlid, heff⟩
    · rintro ⟨el, hel, rfl, ⟨ex, hex, hexid⟩, lw, hlw, hlid, heff⟩
      exact ⟨el.expense_id,
        ⟨{ expense_id := el.expense_id, amount := ex.amount, weight := lw.weight,
           month_diff := now - ex.occurred_at },
         ⟨el, hel, ex, ⟨hex, hexid⟩, lw, ⟨hlw, hlid, heff⟩, rfl⟩, rfl⟩, rfl⟩
  · intro db e he hnone
    constructor
    · unfold recRows
      refine List.mem_flatMap.mpr ⟨e, he, ?_⟩
      rw [hnone]
      simp
    · simp [recScore]
  · intro db e el he hel heid hlw
    have hmem : el ∈ db.expense_labels.filter fun el2 => el2.expense_id = e.expense_id :=
      List.mem_filter.mpr ⟨hel, by simp [heid]⟩
    constructor
    · unfold recRows
      refine List.mem_flatMap.mpr ⟨e, he, ?_⟩
      cases hels : db.expense_labels.filter fun el2 => el2.expense_id = e.expense_id with
      | nil =>
        rw [hels] at hmem
        cases hmem
      | cons a t =>
        rw [hels] at hmem
        simp only [List.isEmpty_cons, Bool.false_eq_true, if_false]
        refine List.mem_flatMap.mpr ⟨el, hmem, ?_⟩
        rw [hlw]
        simp
    · simp [recScore]
  · intro db e el lw he hel heid hlw hlid
    have hmem : el ∈ db.expense_labels.filter fun el2 => el2.expense_id = e.expense_id :=
      List.mem_filter.mpr ⟨hel, by simp [heid]⟩
    have hmemw : lw ∈ db.label_weights.filter fun w => w.label_id = el.label_id :=
      List.mem_filter.mpr ⟨hlw, by simp [hlid]⟩
    unfold recRows
    refine List.mem_flatMap.mpr ⟨e, he, ?_⟩
    cases hels : db.expense_labels.filter fun el2 => el2.expense_id = e.expense_id with
    | nil =>
      rw [hels] at hmem
      cases hmem
    | cons a t =>
      rw [hels] at hmem
      simp only [List.isEmpty_cons, Bool.false_eq_true, if_false]
      refine List.mem_flatMap.mpr ⟨el, hmem, ?_⟩
      cases hlws : db.label_weights.filter fun w => w.label_id = el.label_id with
      | nil =>
        rw [hlws] at hmemw
        cases hmemw
      | cons b t2 =>
        rw [hlws] at hmemw
        simp only [List.isEmpty_cons, Bool.false_eq_true, if_false]
        exact List.mem_map.mpr ⟨lw, hmemw, rfl⟩

/-- Witness for C2's amended statement: at `dbNoActive` the view-membership
equivalence refutes a score row for expense 1; the label-less expense 3 of
`dbLonely` and the weight-less-labelled expense 6 of `dbWeightless` appear
in the recommendation CTE with a NULL weight; and expense 1's expired
weight row of `dbNoActive` is still joined there, carrying its weight 2
rather than 1.0. -/
theorem C2_view_requires_active_weight_witness :
    (1 ∈ (expense_scores 0 dbNoActive).map ScoreRow.expense_id ↔
      hasActiveScoredJoin dbNoActive 1) ∧
    ({ expense_id := 3, product_name := "lonely", amount := 7,
       weight? := none } : RecRow) ∈ recRows dbLonely ∧
    ({ expense_id := 6, product_name := "wless", amount := 11,
       weight? := none } : RecRow) ∈ recRows dbWeightless ∧
    ({ expense_id := 1, product_name := "X", amount := 100,
       weight? := some 2 } : RecRow) ∈ recRows dbNoActive := by
  refine ⟨C2_view_requires_active_weight.1 0 dbNoActive 1, ?_, ?_, ?_⟩
  · exact (C2_view_requires_active_weight.2.1 dbLonely lonelyExpense
      (List.mem_cons_self _ _) rfl).1
  · exact (C2_view_requires_active_weight.2.2.1 dbWeightless expenseWeightless
      { expense_id := 6, label_id := 301 } (List.mem_cons_self _ _)
      (List.mem_cons_self _ _) rfl rfl).1
  · exact C2_view_requires_active_weight.2.2.2 dbNoActive expenseNoActive
      { expense_id := 1, label_id := 201 } staleWeight (List.mem_cons_self _ _)
      (List.mem_cons_self _ _) rfl (List.mem_cons_self _ _) rfl

/-! Helper lemmas on the recommendation upsert. -/

/-- Any confidence in the result of one upsert comes from the previous rows
or from the upserted row. -/
theorem upsert_confidence_cases (acc : List Recommendation) (x rec : Recommendation)
    (h : rec ∈ upsertRecommendation acc x) :
    rec.confidence ∈ acc.map Recommendation.confidence ∨ rec.confidence = x.confidence := by
  unfold upsertRecommendation at h
  split at h
  · obtain ⟨old, hold, heq⟩ := List.mem_map.mp h
    split at heq
    · subst heq; right; rfl
    · subst heq; left; exact List.mem_map_of_mem _ hold
  · rcases List.mem_append.mp h with h1 | h1
    · exact .inl (List.mem_map_of_mem _ h1)
    · right; rw [List.mem_singleton.mp h1]

/-- Any confidence after folding a batch of upserts comes from the initial
rows or from the batch. -/
theorem foldl_upsert_confidence (L : List Recommendation) :
    ∀ acc : List Recommendation, ∀ rec ∈ L.foldl upsertRecommendation acc,
      rec.confidence ∈ acc.map Recommendation.confidence ∨
        rec.confidence ∈ L.map Recommendation.confidence := by
  induction L with
  | nil =>
    intro acc rec h
    exact .inl (List.mem_map_of_mem _ h)
  | cons x t ih =>
    intro acc rec h
    rw [List.foldl_cons] at h
    rcases ih (upsertRecommendation acc x) rec h with hacc | ht
    · obtain ⟨old, hold, hconf⟩ := List.mem_map.mp hacc
      rcases upsert_confidence_cases acc x old hold with h1 | h1
      · left; rw [← hconf]; exact h1
      · right; rw [← hconf, h1]; exact List.mem_map_of_mem _ (List.mem_cons_self x t)
    · right; rw [List.map_cons]; exact List.mem_cons_of_mem _ ht

/-- One upsert never shrinks the table. -/
theorem upsert_length_ge (acc : List Recommendation) (x : Recommendation) :
    acc.length ≤ (upsertRecommendation acc x).length := by
  unfold upsertRecommendation
  split
  · rw [List.length_map]
  · simp

/-- A folded batch of upserts never shrinks the table. -/
theorem foldl_upsert_length_ge (L : List Recommendation) :
    ∀ acc : List Recommendation, acc.length ≤ (L.foldl upsertRecommendation acc).length := by
  induction L with
  | nil => intro acc; exact le_refl _
  | cons x t ih =>
    intro acc
    rw [List.foldl_cons]
    exact le_trans (upsert_length_ge acc x) (ih _)

/-- Every element of the insertion preserves the length by one. -/
theorem insertByScoreDesc_length (r : RecRow) (l : List RecRow) :
    (insertByScoreDesc r l).length = l.length + 1 := by
  induction l with
  | nil => rfl
  | cons x xs ih =>
    unfold insertByScoreDesc
    split
    · simp
    · simp [ih]

/-- The descending sort is a permutation in length. -/
theorem sortByScoreDesc_length (l : List RecRow) :
    (sortByScoreDesc l).length = l.length := by
  unfold sortByScoreDesc
  induction l with
  | nil => rfl
  | cons x xs ih =>
    rw [List.foldr_cons, insertByScoreDesc_length, ih, List.length_cons]

/-- Every expense contributes at least one row to the recommendation CTE
(its LEFT JOINs preserve the left side). -/
theorem exists_recRow_of_mem (db : DB) (e : Expense) (he : e ∈ db.expenses) :
    ∃ r ∈ recRows db, r.expense_id = e.expense_id := by
  unfold recRows
  cases hels : db.expense_labels.filter fun el => el.expense_id = e.expense_id with
  | nil =>
    refine ⟨{ expense_id := e.expense_id, product_name := e.product_name,
              amount := e.amount, weight? := none }, ?_, rfl⟩
    refine List.mem_flatMap.mpr ⟨e, he, ?_⟩
    rw [hels]
    simp
  | cons el rest =>
    cases hlws : db.label_weights.filter fun lw => lw.label_id = el.label_id with
    | nil =>
      refine ⟨{ expense_id := e.expense_id, product_name := e.product_name,
                amount := e.amount, weight? := none }, ?_, rfl⟩
      refine List.mem_flatMap.mpr ⟨e, he, ?_⟩
      rw [hels]
      simp only [List.isEmpty_cons, if_false, Bool.false_eq_true]
      refine List.mem_flatMap.mpr ⟨el, List.mem_cons_self el rest, ?_⟩
      rw [hlws]
      simp
    | cons lw rest2 =>
      refine ⟨{ expense_id := e.expense_id, product_name := e.product_name,
                amount := e.amount, weight? := some lw.weight }, ?_, rfl⟩
      refine List.mem_flatMap.mpr ⟨e, he, ?_⟩
      rw [hels]
      simp only [List.isEmpty_cons, if_false, Bool.false_eq_true]
      refine List.mem_flatMap.mpr ⟨el, List.mem_cons_self el rest, ?_⟩
      rw [hlws]
      simp only [List.isEmpty_cons, if_false, Bool.false_eq_true]
      exact List.mem_map_of_mem _ (List.mem_cons_self lw rest2)

/-- C7 counterexample: in `dbDecayed` the only expense is 2 months old with
amount 100 and active label weight 1.5.  Its time-decayed priority score is
54, but the generated recommendation's `confidence` is the undecayed
`amount * weight = 150`. -/
theorem C7_counterexample :
    ((generate_recommendations (fun n => n) 0 dbDecayed).recommendations.map
        Recommendation.confidence) = [150] ∧
    priorityScore 0 dbDecayed 4 = 54 ∧ (150 : ℚ) ≠ 54 := by
  refine ⟨?_, ?_, by norm_num⟩
  · norm_num [generate_recommendations, highPriorityRows, recRows, sortByScoreDesc,
      insertByScoreDesc, ntile4Tile1Count, upsertRecommendation, mkRecommendation,
      recScore, dbDecayed, emptyDB]
  · norm_num [priorityScore, scored_labels, slContribution, decayPow, dbDecayed,
      emptyDB]

/-- C7 (amended): starting from an empty recommendation table, every
generated recommendation's `confidence` equals
`amount * COALESCE(weight, 1.0)` of one of the quartile-1 CTE rows — the
raw undecayed score of the recommendation query (unbounded above 1), not
the time-decayed priority score of the scoring view. -/
theorem C7_confidence_is_undecayed_score (hash : Nat → Nat) (now : Int) (db : DB)
    (hempty : db.recommendations = []) :
    ∀ rec ∈ (generate_recommendations hash now db).recommendations,
      ∃ r ∈ highPriorityRows db, rec.confidence = r.amount * r.weight?.getD 1 := by
  intro rec hrec
  simp only [generate_recommendations, hempty] at hrec
  rcases foldl_upsert_confidence _ _ rec hrec with h | h
  · simp at h
  · obtain ⟨ins, hins, hconf⟩ := List.mem_map.mp h
    obtain ⟨r, hr, rfl⟩ := List.mem_map.mp hins
    exact ⟨r, hr, by rw [← hconf]; rfl⟩

/-- Witness for C7's amended statement at `dbDecayed`: the one generated
recommendation has confidence `100 * 1.5`. -/
theorem C7_confidence_is_undecayed_score_witness :
    dbDecayed.recommendations = [] ∧
    ∃ r ∈ highPriorityRows dbDecayed,
      (mkRecommendation (fun n => n) 0 rowDecayed).confidence =
        r.amount * r.weight?.getD 1 := by
  refine ⟨rfl, ?_⟩
  have hsel : highPriorityRows dbDecayed = [rowDecayed] := by
    norm_num [highPriorityRows, recRows, sortByScoreDesc, insertByScoreDesc,
      ntile4Tile1Count, dbDecayed, emptyDB, rowDecayed]
  have hmem : mkRecommendation (fun n => n) 0 rowDecayed ∈
      (generate_recommendations (fun n => n) 0 dbDecayed).recommendations := by
    simp only [generate_recommendations]
    rw [hsel]
    simp [upsertRecommendation, dbDecayed, emptyDB]
  exact C7_confidence_is_undecayed_score (fun n => n) 0 dbDecayed rfl _ hmem

/-- C9 counterexample: `dbZero` holds a single expense of amount 0 (so every
expense has score 0), yet `NTILE(4)` still places it in quartile 1 and one
recommendation is generated, not zero. -/
theorem C9_counterexample :
    ((generate_recommendations (fun n => n) 0 dbZero).recommendations).length = 1 := by
  decide

/-- C9 (amended): on an empty expense set the generator is the identity (no
recommendation and nothing raised; its query performs no normalisation and
no division at all), but on a nonempty expense set with all-zero scores it
still generates at least one recommendation, because `NTILE(4) ... DESC`
quartiles rows regardless of their score value. -/
theorem C9_empty_vs_allzero (hash : Nat → Nat) (now : Int) (db : DB) :
    (db.expenses = [] → generate_recommendations hash now db = db) ∧
    (db.expenses ≠ [] → db.recommendations = [] →
      (generate_recommendations hash now db).recommendations ≠ []) := by
  constructor
  · intro h
    have hrows : recRows db = [] := by
      unfold recRows
      rw [h]
      simp
    simp only [generate_recommendations, highPriorityRows]
    rw [hrows]
    simp [sortByScoreDesc, ntile4Tile1Count]
  · intro hne hrecs
    have hrows : recRows db ≠ [] := by
      cases hexp : db.expenses with
      | nil => exact absurd hexp hne
      | cons e es =>
        obtain ⟨r, hr, _⟩ := exists_recRow_of_mem db e (by rw [hexp]; exact List.mem_cons_self _ _)
        exact List.ne_nil_of_mem hr
    have hlen : 1 ≤ (recRows db).length :=
      List.length_pos.mpr hrows
    have hcount : 1 ≤ ntile4Tile1Count (recRows db).length := by
      unfold ntile4Tile1Count
      omega
    have hsel : highPriorityRows db ≠ [] := by
      unfold highPriorityRows
      intro hnil
      have hlen0 := congrArg List.length hnil
      rw [List.length_take, sortByScoreDesc_length] at hlen0
      simp only [List.length_nil] at hlen0
      omega
    simp only [generate_recommendations]
    rw [hrecs]
    intro hnil
    cases hins : (highPriorityRows db).map (mkRecommendation hash now) with
    | nil => exact hsel (List.map_eq_nil_iff.mp hins)
    | cons i t =>
      rw [hins, List.foldl_cons] at hnil
      have h1 := foldl_upsert_length_ge t (upsertRecommendation [] i)
      rw [hnil] at h1
      simp [upsertRecommendation] at h1

/-- Witness for C9's amended statement: identity on the empty database, and
a nonempty recommendation table for the all-zero database. -/
theorem C9_empty_vs_allzero_witness :
    generate_recommendations (fun n => n) 0 emptyDB = emptyDB ∧
    (generate_recommendations (fun n => n) 0 dbZero).recommendations ≠ [] :=
  ⟨(C9_empty_vs_allzero (fun n => n) 0 emptyDB).1 rfl,
   (C9_empty_vs_allzero (fun n => n) 0 dbZero).2 (by decide) rfl⟩

/-- An upsert makes its key present. -/
theorem upsert_establishes_key (acc : List Recommendation) (x : Recommendation) :
    ∃ r ∈ upsertRecommendation acc x, r.recommendation_id = x.recommendation_id := by
  unfold upsertRecommendation
  by_cases hk : (acc.any fun old => old.recommendation_id = x.recommendation_id) = true
  · rw [if_pos hk]
    simp only [List.any_eq_true, decide_eq_true_eq] at hk
    obtain ⟨old, hold, hid⟩ := hk
    exact ⟨{ old with generated_at := x.generated_at, confidence := x.confidence },
      List.mem_map.mpr ⟨old, hold, by rw [if_pos hid]⟩, hid⟩
  · rw [if_neg hk]
    exact ⟨x, List.mem_append.mpr (.inr (List.mem_singleton.mpr rfl)), rfl⟩

/-- An upsert preserves the presence of every key. -/
theorem upsert_preserves_key (acc : List Recommendation) (x : Recommendation) (k : Nat)
    (h : ∃ r ∈ acc, r.recommendation_id = k) :
    ∃ r ∈ upsertRecommendation acc x, r.recommendation_id = k := by
  obtain ⟨r, hr, hrk⟩ := h
  unfold upsertRecommendation
  by_cases hk : (acc.any fun old => old.recommendation_id = x.recommendation_id) = true
  · rw [if_pos hk]
    by_cases hid : r.recommendation_id = x.recommendation_id
    · exact ⟨{ r with generated_at := x.generated_at, confidence := x.confidence },
        List.mem_map.mpr ⟨r, hr, by rw [if_pos hid]⟩, hrk⟩
    · exact ⟨r, List.mem_map.mpr ⟨r, hr, by rw [if_neg hid]⟩, hrk⟩
  · rw [if_neg hk]
    exact ⟨r, List.mem_append.mpr (.inl hr), hrk⟩

/-- A folded batch of upserts preserves the presence of every key. -/
theorem foldl_upsert_preserves_key (L : List Recommendation) :
    ∀ acc k, (∃ r ∈ acc, r.recommendation_id = k) →
      ∃ r ∈ L.foldl upsertRecommendation acc, r.recommendation_id = k := by
  induction L with
  | nil => intro acc k h; exact h
  | cons x t ih =>
    intro acc k h
    rw [List.foldl_cons]
    exact ih _ k (upsert_preserves_key acc x k h)

/-- A folded batch of upserts establishes every key of the batch. -/
theorem foldl_upsert_establishes_key (L : List Recommendation) :
    ∀ acc, ∀ x ∈ L,
      ∃ r ∈ L.foldl upsertRecommendation acc,
        r.recommendation_id = x.recommendation_id := by
  induction L with
  | nil => intro acc x hx; cases hx
  | cons y t ih =>
    intro acc x hx
    rw [List.foldl_cons]
    rcases List.mem_cons.mp hx with rfl | hx2
    · exact foldl_upsert_preserves_key t _ _ (upsert_establishes_key acc x)
    · exact ih _ x hx2

/-- When the upserted key is already present, an upsert changes no row's
id, message or related expense, and adds no row. -/
theorem upsert_frame_of_key_present (acc : List Recommendation) (x : Recommendation)
    (h : ∃ r ∈ acc, r.recommendation_id = x.recommendation_id) :
    (upsertRecommendation acc x).map
        (fun r => (r.recommendation_id, r.message, r.related_expense_id)) =
      acc.map (fun r => (r.recommendation_id, r.message, r.related_expense_id)) := by
  unfold upsertRecommendation
  have hk : (acc.any fun old => old.recommendation_id = x.recommendation_id) = true := by
    simp only [List.any_eq_true, decide_eq_true_eq]
    exact h
  rw [if_pos hk, List.map_map]
  refine List.map_congr_left ?_
  intro a _
  by_cases hid : a.recommendation_id = x.recommendation_id
  · simp [hid]
  · simp [hid]

/-- Folding a batch of upserts whose keys are all present changes no row's
id, message or related expense, and adds no row. -/
theorem foldl_upsert_frame (L : List Recommendation) :
    ∀ acc, (∀ x ∈ L, ∃ r ∈ acc, r.recommendation_id = x.recommendation_id) →
      (L.foldl upsertRecommendation acc).map
          (fun r => (r.recommendation_id, r.message, r.related_expense_id)) =
        acc.map (fun r => (r.recommendation_id, r.message, r.related_expense_id)) := by
  induction L with
  | nil => intro acc _; rfl
  | cons x t ih =>
    intro acc hpres
    rw [List.foldl_cons]
    have h2 : ∀ y ∈ t, ∃ r ∈ upsertRecommendation acc x,
        r.recommendation_id = y.recommendation_id :=
      fun y hy => upsert_preserves_key acc x _ (hpres y (List.mem_cons_of_mem x hy))
    rw [ih (upsertRecommendation acc x) h2,
      upsert_frame_of_key_present acc x (hpres x (List.mem_cons_self x t))]

/-- C8: re-running the generator on an unchanged expense set inserts no
duplicate recommendation: the upsert is keyed by `abs(hash("rec_" + id))`,
a fixed function of the expense id, and on conflict only `generated_at`
and `confidence` change — the re-run preserves every row's
`recommendation_id`, `message` and `related_expense_id`, and the row
count. -/
theorem C8_regeneration_upsert_frame (hash : Nat → Nat) (now1 now2 : Int) (db : DB) :
    ((generate_recommendations hash now2
          (generate_recommendations hash now1 db)).recommendations.map
        (fun r => (r.recommendation_id, r.message, r.related_expense_id)) =
      (generate_recommendations hash now1 db).recommendations.map
        (fun r => (r.recommendation_id, r.message, r.related_expense_id))) ∧
    (generate_recommendations hash now2
        (generate_recommendations hash now1 db)).recommendations.length =
      (generate_recommendations hash now1 db).recommendations.length := by
  set db1 := generate_recommendations hash now1 db with hdb1
  have hkeys : ∀ x ∈ (highPriorityRows db).map (mkRecommendation hash now2),
      ∃ r ∈ db1.recommendations, r.recommendation_id = x.recommendation_id := by
    intro x hx
    obtain ⟨rr, hrr, rfl⟩ := List.mem_map.mp hx
    have h1 : ∃ r ∈ db1.recommendations,
        r.recommendation_id = (mkRecommendation hash now1 rr).recommendation_id := by
      rw [hdb1]
      simp only [generate_recommendations]
      exact foldl_upsert_establishes_key _ db.recommendations _
        (List.mem_map_of_mem _ hrr)
    exact h1
  have hmain := foldl_upsert_frame
    ((highPriorityRows db).map (mkRecommendation hash now2)) db1.recommendations hkeys
  refine ⟨hmain, ?_⟩
  have hlen := congrArg List.length hmain
  rwa [List.length_map, List.length_map] at hlen

/-- C3 counterexample: in `dbMergeOverlapTarget` the labels a, b and c all
exist, yet `merge_labels ["a","b"] "c"` fails — expense 10 holds both a and
c, so the repointing UPDATE would duplicate the (10, c) primary key — and
hence neither repoints anything nor removes the source labels, against the
claim's unconditional success branch. -/
theorem C3_counterexample :
    dbMergeOverlapTarget.labels.map Label.name = ["a", "b", "c"] ∧
    merge_labels dbMergeOverlapTarget ["a", "b"] "c" =
      .error "Constraint Error: Duplicate key violates primary key constraint of expense_labels" := by
  exact ⟨rfl, by decide⟩

/-- C3 (amended): merge is atomic in every case, but when all names exist
success is conditional: (i) a missing target fails with its not-found
error; (ii) a missing source fails with an error; (iii) with every name
resolved and a nonempty source list, the merge either repoints every
source association to the target and removes exactly the source labels —
when no duplicate association would arise — or fails with a constraint
error when one would.  An `Except.error` outcome carries no new state, so
there is never a partial outcome. -/
theorem C3_merge_notfound_and_atomicity (db : DB) (sources : List String)
    (target : String) (tid : Int) (sids : List Int) :
    ((¬ ∃ l ∈ db.labels, l.name = target) →
      merge_labels db sources target = .error (labelNotFoundMsg target)) ∧
    ((∃ s ∈ sources, ¬ ∃ l ∈ db.labels, l.name = s) →
      ∃ m, merge_labels db sources target = .error m) ∧
    (get_label_id db target = .ok tid →
      sources.mapM (get_label_id db) = .ok sids →
      sources ≠ [] →
      (((elKeys (db.expense_labels.map fun el =>
            if el.label_id ∈ sids then { el with label_id := tid } else el)).Nodup →
          merge_labels db sources target = .ok
            { db with
              expense_labels := db.expense_labels.map fun el =>
                if el.label_id ∈ sids then { el with label_id := tid } else el
              labels := db.labels.filter fun l => l.label_id ∉ sids }) ∧
        (¬ (elKeys (db.expense_labels.map fun el =>
            if el.label_id ∈ sids then { el with label_id := tid } else el)).Nodup →
          merge_labels db sources target =
            .error "Constraint Error: Duplicate key violates primary key constraint of expense_labels"))) := by
  refine ⟨?_, ?_, ?_⟩
  · intro h
    unfold merge_labels
    rw [get_label_id_err db target h]
    rfl
  · intro h
    cases hget : get_label_id db target with
    | error m =>
      exact ⟨m, by unfold merge_labels; rw [hget]; rfl⟩
    | ok i =>
      obtain ⟨m, hm⟩ := mapM_get_label_id_error db sources h
      exact ⟨m, by unfold merge_labels; rw [hget, except_bind_ok, hm]; rfl⟩
  · intro htid hsids hne
    exact ⟨merge_labels_ok db sources target tid sids htid hsids hne,
      merge_labels_conflict db sources target tid sids htid hsids hne⟩

/-- Witness for C3 at `dbMergeOk`: the success branch of the amended
statement, applied with concrete resolutions. -/
theorem C3_merge_notfound_and_atomicity_witness :
    merge_labels dbMergeOk ["x", "y"] "t" = .ok
      { dbMergeOk with
        expense_labels := [{ expense_id := 20, label_id := 3 },
                           { expense_id := 21, label_id := 3 },
                           { expense_id := 22, label_id := 3 }]
        labels := [{ label_id := 3, name := "t" }] } := by
  have h := ((C3_merge_notfound_and_atomicity dbMergeOk ["x", "y"] "t" 3 [1, 2]).2.2
    rfl rfl (by decide)).1 (by decide)
  exact h.trans (by decide)

/-- The merge repoint keeps the association primary key whenever no expense
carries two of the three merged labels. -/
theorem repoint_nodup (els : List ExpenseLabel) (aid bid cid : Int)
    (hbase : (els.map fun el => (el.expense_id, el.label_id)).Nodup)
    (hdisj : ∀ el1 ∈ els, ∀ el2 ∈ els, el1 ≠ el2 →
      el1.expense_id = el2.expense_id →
      ¬(el1.label_id ∈ [aid, bid, cid] ∧ el2.label_id ∈ [aid, bid, cid])) :
    (elKeys (els.map fun el =>
      if el.label_id ∈ [aid, bid] then { el with label_id := cid } else el)).Nodup := by
  unfold elKeys
  rw [List.map_map]
  refine List.pairwise_map.mpr ?_
  have hb2 := List.pairwise_map.mp hbase
  refine hb2.imp_of_mem ?_
  intro x y hx hy hkey heq
  simp only [Function.comp_def] at heq
  rw [Prod.mk.injEq] at heq
  obtain ⟨h1, h2⟩ := heq
  have hfst : ∀ el : ExpenseLabel,
      (if el.label_id ∈ [aid, bid] then { el with label_id := cid } else el).expense_id =
        el.expense_id := by
    intro el
    split <;> rfl
  rw [hfst, hfst] at h1
  have hne : x ≠ y := fun h => hkey (by rw [h])
  have hdis := hdisj x hx y hy hne h1
  by_cases hmx : x.label_id ∈ [aid, bid]
  · have hx3 : x.label_id ∈ [aid, bid, cid] := by
      simp only [List.mem_cons, List.not_mem_nil, or_false] at hmx ⊢
      tauto
    by_cases hmy : y.label_id ∈ [aid, bid]
    · have hy3 : y.label_id ∈ [aid, bid, cid] := by
        simp only [List.mem_cons, List.not_mem_nil, or_false] at hmy ⊢
        tauto
      exact hdis ⟨hx3, hy3⟩
    · rw [if_pos hmx, if_neg hmy] at h2
      have hyc : cid = y.label_id := h2
      have hy3 : y.label_id ∈ [aid, bid, cid] := by simp [← hyc]
      exact hdis ⟨hx3, hy3⟩
  · by_cases hmy : y.label_id ∈ [aid, bid]
    · rw [if_neg hmx, if_pos hmy] at h2
      have hxc : x.label_id = cid := h2
      have hx3 : x.label_id ∈ [aid, bid, cid] := by simp [hxc]
      have hy3 : y.label_id ∈ [aid, bid, cid] := by
        simp only [List.mem_cons, List.not_mem_nil, or_false] at hmy ⊢
        tauto
      exact hdis ⟨hx3, hy3⟩
    · rw [if_neg hmx, if_neg hmy] at h2
      exact hkey (Prod.ext h1 h2)

/-- C4 (amended): when labels a, b, c exist with distinct ids and unique
names, the association table respects its primary key, and no expense is
associated with more than one of a, b, c, then `merge(["a","b"],"c")`
succeeds, the expenses associated with c afterwards are exactly the union
of those previously associated with a, b or c, and no label named a or b
remains.  (When some expense does carry two of the three, the merge fails
with a constraint error and changes nothing — see the counterexample.) -/
theorem C4_merge_union (db : DB) (a b c : String) (la lb lc : Label)
    (ha : db.labels.find? (fun l => l.name = a) = some la)
    (hb : db.labels.find? (fun l => l.name = b) = some lb)
    (hc : db.labels.find? (fun l => l.name = c) = some lc)
    (hab : la.label_id ≠ lb.label_id) (hac : la.label_id ≠ lc.label_id)
    (hbc : lb.label_id ≠ lc.label_id)
    (hnames : (db.labels.map Label.name).Nodup)
    (hbase : elPairsNodup db)
    (hdisj : ∀ el1 ∈ db.expense_labels, ∀ el2 ∈ db.expense_labels, el1 ≠ el2 →
      el1.expense_id = el2.expense_id →
      ¬(el1.label_id ∈ [la.label_id, lb.label_id, lc.label_id] ∧
        el2.label_id ∈ [la.label_id, lb.label_id, lc.label_id])) :
    ∃ db2, merge_labels db [a, b] c = .ok db2 ∧
      (∀ eid : Nat,
        ({ expense_id := eid, label_id := lc.label_id } : ExpenseLabel) ∈
            db2.expense_labels ↔
          ({ expense_id := eid, label_id := la.label_id } : ExpenseLabel) ∈
            db.expense_labels ∨
          ({ expense_id := eid, label_id := lb.label_id } : ExpenseLabel) ∈
            db.expense_labels ∨
          ({ expense_id := eid, label_id := lc.label_id } : ExpenseLabel) ∈
            db.expense_labels) ∧
      (¬ ∃ l ∈ db2.labels, l.name = a) ∧ (¬ ∃ l ∈ db2.labels, l.name = b) := by
  have hga : get_label_id db a = .ok la.label_id := by unfold get_label_id; rw [ha]
  have hgb : get_label_id db b = .ok lb.label_id := by unfold get_label_id; rw [hb]
  have hgc : get_label_id db c = .ok lc.label_id := by unfold get_label_id; rw [hc]
  have hsids : [a, b].mapM (get_label_id db) = .ok [la.label_id, lb.label_id] := by
    rw [List.mapM_cons, hga, except_bind_ok, List.mapM_cons, hgb, except_bind_ok,
      List.mapM_nil]
    rfl
  have hnodup := repoint_nodup db.expense_labels la.label_id lb.label_id lc.label_id
    hbase hdisj
  refine ⟨_, merge_labels_ok db [a, b] c lc.label_id [la.label_id, lb.label_id]
    hgc hsids (by simp) hnodup, ?_, ?_, ?_⟩
  · intro eid
    simp only [List.mem_map]
    constructor
    · rintro ⟨el, hel, hfeq⟩
      by_cases hmem : el.label_id ∈ [la.label_id, lb.label_id]
      · rw [if_pos hmem] at hfeq
        have heid : el.expense_id = eid := congrArg ExpenseLabel.expense_id hfeq
        simp only [List.mem_cons, List.not_mem_nil, or_false] at hmem
        rcases hmem with h1 | h1
        · left
          have hel2 : el = { expense_id := eid, label_id := la.label_id } := by
            cases el
            simp_all
          rwa [hel2] at hel
        · right; left
          have hel2 : el = { expense_id := eid, label_id := lb.label_id } := by
            cases el
            simp_all
          rwa [hel2] at hel
      · rw [if_neg hmem] at hfeq
        right; right
        rwa [hfeq] at hel
    · rintro (h1 | h1 | h1)
      · exact ⟨{ expense_id := eid, label_id := la.label_id }, h1,
          by rw [if_pos (by simp)]⟩
      · exact ⟨{ expense_id := eid, label_id := lb.label_id }, h1,
          by rw [if_pos (by simp)]⟩
      · refine ⟨{ expense_id := eid, label_id := lc.label_id }, h1, ?_⟩
        rw [if_neg ?_]
        simp only [List.mem_cons, List.not_mem_nil, or_false]
        rintro (h2 | h2)
        · exact hac h2.symm
        · exact hbc h2.symm
  · rintro ⟨l, hl, hlname⟩
    rw [List.mem_filter] at hl
    obtain ⟨hldb, hlid⟩ := hl
    have hla_mem : la ∈ db.labels := List.mem_of_find?_eq_some ha
    have hla_name : la.name = a := by simpa using List.find?_some ha
    have hl_eq : l = la :=
      List.inj_on_of_nodup_map hnames hldb hla_mem (by rw [hlname, hla_name])
    rw [hl_eq] at hlid
    simp at hlid
  · rintro ⟨l, hl, hlname⟩
    rw [List.mem_filter] at hl
    obtain ⟨hldb, hlid⟩ := hl
    have hlb_mem : lb ∈ db.labels := List.mem_of_find?_eq_some hb
    have hlb_name : lb.name = b := by simpa using List.find?_some hb
    have hl_eq : l = lb :=
      List.inj_on_of_nodup_map hnames hldb hlb_mem (by rw [hlname, hlb_name])
    rw [hl_eq] at hlid
    simp at hlid

/-- C4 counterexample: in `dbMergeOverlapSources` expense 30 is associated
with both sources a and b.  Repointing both onto c would write the (30, c)
key twice, so `merge(["a","b"],"c")` fails with a constraint error instead
of producing the union, and labels a and b survive. -/
theorem C4_counterexample :
    merge_labels dbMergeOverlapSources ["a", "b"] "c" =
      .error "Constraint Error: Duplicate key violates primary key constraint of expense_labels" := by
  decide

/-- Witness for C4 at `dbMergeDisjoint`, with all hypotheses discharged on
the concrete database. -/
theorem C4_merge_union_witness :
    ∃ db2, merge_labels dbMergeDisjoint ["a", "b"] "c" = .ok db2 ∧
      (∀ eid : Nat,
        ({ expense_id := eid, label_id := 3 } : ExpenseLabel) ∈
            db2.expense_labels ↔
          ({ expense_id := eid, label_id := 1 } : ExpenseLabel) ∈
            dbMergeDisjoint.expense_labels ∨
          ({ expense_id := eid, label_id := 2 } : ExpenseLabel) ∈
            dbMergeDisjoint.expense_labels ∨
          ({ expense_id := eid, label_id := 3 } : ExpenseLabel) ∈
            dbMergeDisjoint.expense_labels) ∧
      (¬ ∃ l ∈ db2.labels, l.name = "a") ∧ (¬ ∃ l ∈ db2.labels, l.name = "b") :=
  C4_merge_union dbMergeDisjoint "a" "b" "c"
    { label_id := 1, name := "a" } { label_id := 2, name := "b" }
    { label_id := 3, name := "c" }
    rfl rfl rfl (by decide) (by decide) (by decide) (by decide) (by decide)
    (by decide)

/-- C6 counterexample: `dbSplitNoSource` has no label named a, yet
`split_label "a" "b" [1]` does not fail with a's not-found error — the
failure it does produce is the NOT NULL constraint error of the
label-creation INSERT, raised identically whether or not the source label
exists. -/
theorem C6_counterexample :
    (¬ ∃ l ∈ dbSplitNoSource.labels, l.name = "a") ∧
    split_label dbSplitNoSource "a" "b" [1] = .error splitInsertError ∧
    splitInsertError ≠ labelNotFoundMsg "a" := by
  exact ⟨by decide, rfl, by decide⟩

/-- C6 (amended): `split_label` never looks up `source`, so an absent
source name never yields a not-found error.  As written, every call fails
with the NOT NULL constraint error of `INSERT INTO labels (name) VALUES
(?)`, which supplies no `label_id` for the primary key — a failure
independent of `source` and of the database state. -/
theorem C6_split_never_checks_source (db : DB) (source new_name : String)
    (ids : List Nat) :
    split_label db source new_name ids = .error splitInsertError := rfl

/-! Helper lemmas on the expense upsert and the label-assignment insert. -/

/-- An expense upsert makes its key present. -/
theorem upsertExpense_establishes_key (es : List Expense) (x : Expense) :
    ∃ e ∈ upsertExpense es x, e.expense_id = x.expense_id := by
  unfold upsertExpense
  by_cases hk : (es.any fun old => old.expense_id = x.expense_id) = true
  · rw [if_pos hk]
    simp only [List.any_eq_true, decide_eq_true_eq] at hk
    obtain ⟨old, hold, hid⟩ := hk
    refine ⟨_, List.mem_map_of_mem _ hold, ?_⟩
    rw [if_pos hid]
    exact hid
  · rw [if_neg hk]
    exact ⟨x, List.mem_append.mpr (.inr (List.mem_singleton.mpr rfl)), rfl⟩

/-- An expense upsert preserves the presence of every key. -/
theorem upsertExpense_preserves_key (es : List Expense) (x : Expense) (k : Nat)
    (h : ∃ e ∈ es, e.expense_id = k) :
    ∃ e ∈ upsertExpense es x, e.expense_id = k := by
  obtain ⟨e, he, hek⟩ := h
  unfold upsertExpense
  by_cases hk : (es.any fun old => old.expense_id = x.expense_id) = true
  · rw [if_pos hk]
    by_cases hid : e.expense_id = x.expense_id
    · refine ⟨_, List.mem_map_of_mem _ he, ?_⟩
      rw [if_pos hid]
      exact hek
    · refine ⟨_, List.mem_map_of_mem _ he, ?_⟩
      rw [if_neg hid]
      exact hek
  · rw [if_neg hk]
    exact ⟨e, List.mem_append.mpr (.inl he), hek⟩

/-- A folded batch of expense upserts preserves key presence. -/
theorem foldl_upsertExpense_preserves_key (L : List Expense) :
    ∀ acc k, (∃ e ∈ acc, e.expense_id = k) →
      ∃ e ∈ L.foldl upsertExpense acc, e.expense_id = k := by
  induction L with
  | nil => intro acc k h; exact h
  | cons x t ih =>
    intro acc k h
    rw [List.foldl_cons]
    exact ih _ k (upsertExpense_preserves_key acc x k h)

/-- A folded batch of expense upserts establishes every key of the batch. -/
theorem foldl_upsertExpense_establishes_key (L : List Expense) :
    ∀ acc, ∀ x ∈ L,
      ∃ e ∈ L.foldl upsertExpense acc, e.expense_id = x.expense_id := by
  induction L with
  | nil => intro acc x hx; cases hx
  | cons y t ih =>
    intro acc x hx
    rw [List.foldl_cons]
    rcases List.mem_cons.mp hx with rfl | hx2
    · exact foldl_upsertExpense_preserves_key t _ _ (upsertExpense_establishes_key acc x)
    · exact ih _ x hx2

/-- Upserting a present key does not change the row count. -/
theorem upsertExpense_length_of_key_present (es : List Expense) (x : Expense)
    (h : ∃ e ∈ es, e.expense_id = x.expense_id) :
    (upsertExpense es x).length = es.length := by
  unfold upsertExpense
  have hk : (es.any fun old => old.expense_id = x.expense_id) = true := by
    simp only [List.any_eq_true, decide_eq_true_eq]
    exact h
  rw [if_pos hk, List.length_map]

/-- Folding upserts of present keys does not change the row count. -/
theorem foldl_upsertExpense_length_of_keys_present (L : List Expense) :
    ∀ acc, (∀ x ∈ L, ∃ e ∈ acc, e.expense_id = x.expense_id) →
      (L.foldl upsertExpense acc).length = acc.length := by
  induction L with
  | nil => intro acc _; rfl
  | cons x t ih =>
    intro acc hpres
    rw [List.foldl_cons]
    rw [ih (upsertExpense acc x)
      (fun y hy => upsertExpense_preserves_key acc x _ (hpres y (List.mem_cons_of_mem x hy))),
      upsertExpense_length_of_key_present acc x (hpres x (List.mem_cons_self x t))]

/-- An expense upsert preserves uniqueness of the `expense_id` key. -/
theorem upsertExpense_keys_nodup (es : List Expense) (x : Expense)
    (h : (es.map Expense.expense_id).Nodup) :
    ((upsertExpense es x).map Expense.expense_id).Nodup := by
  unfold upsertExpense
  by_cases hk : (es.any fun old => old.expense_id = x.expense_id) = true
  · rw [if_pos hk, List.map_map]
    have hcomp : (Expense.expense_id ∘ fun old =>
        if old.expense_id = x.expense_id then applyExpenseUpdate x old else old) =
          Expense.expense_id := by
      funext old
      by_cases hid : old.expense_id = x.expense_id
      · simp [Function.comp_def, hid, applyExpenseUpdate]
      · simp [Function.comp_def, hid]
    rwa [hcomp]
  · rw [if_neg hk, List.map_append]
    simp only [List.any_eq_true, decide_eq_true_eq, not_exists, not_and] at hk
    simp only [List.map_cons, List.map_nil, List.nodup_append, List.nodup_cons,
      List.not_mem_nil, not_false_iff, List.nodup_nil, true_and, and_true]
    constructor
    · exact h
    · intro k hkmem
      simp only [List.mem_singleton]
      obtain ⟨e, he, rfl⟩ := List.mem_map.mp hkmem
      exact fun hek => hk e he hek

/-- A folded batch of expense upserts preserves key uniqueness. -/
theorem foldl_upsertExpense_keys_nodup (L : List Expense) :
    ∀ acc, (acc.map Expense.expense_id).Nodup →
      ((L.foldl upsertExpense acc).map Expense.expense_id).Nodup := by
  induction L with
  | nil => intro acc h; exact h
  | cons x t ih =>
    intro acc h
    rw [List.foldl_cons]
    exact ih _ (upsertExpense_keys_nodup acc x h)

/-- A label-assignment insert preserves uniqueness of the association
pairs. -/
theorem insertAssociation_pairs_nodup (els : List ExpenseLabel) (p : ExpenseLabel)
    (h : (elKeys els).Nodup) : (elKeys (insertAssociationIfAbsent els p)).Nodup := by
  unfold insertAssociationIfAbsent
  by_cases hk : (els.any fun q => q.expense_id = p.expense_id ∧ q.label_id = p.label_id) = true
  · rwa [if_pos hk]
  · rw [if_neg hk]
    unfold elKeys
    rw [List.map_append]
    simp only [List.any_eq_true, decide_eq_true_eq, not_exists, not_and] at hk
    simp only [List.map_cons, List.map_nil, List.nodup_append, List.nodup_cons,
      List.not_mem_nil, not_false_iff, List.nodup_nil, true_and, and_true]
    constructor
    · exact h
    · intro k hkmem
      simp only [List.mem_singleton]
      obtain ⟨el, hel, rfl⟩ := List.mem_map.mp hkmem
      intro hpair
      have h1 : el.expense_id = p.expense_id := congrArg Prod.fst hpair
      have h2 : el.label_id = p.label_id := congrArg Prod.snd hpair
      exact hk el hel h1 h2

/-- Folding label-assignment inserts preserves uniqueness of the
association pairs. -/
theorem foldl_insertAssociation_pairs_nodup {α : Type} (xs : List α)
    (g : α → ExpenseLabel) :
    ∀ acc, (elKeys acc).Nodup →
      (elKeys (xs.foldl (fun a x => insertAssociationIfAbsent a (g x)) acc)).Nodup := by
  induction xs with
  | nil => intro acc h; exact h
  | cons x t ih =>
    intro acc h
    rw [List.foldl_cons]
    exact ih _ (insertAssociation_pairs_nodup acc (g x) h)

/-- The audit insert touches only `unmapped_categories`. -/
theorem insertUnmapped_raw (db : DB) :
    (insertUnmapped db).raw_source_google = db.raw_source_google := rfl

/-- The audit insert touches only `unmapped_categories` (expenses view). -/
theorem insertUnmapped_expenses (db : DB) : (insertUnmapped db).expenses = db.expenses := rfl

/-- The label assignment touches only `expense_labels`. -/
theorem assignDefaultLabels_expenses (db : DB) :
    (assignDefaultLabels db).expenses = db.expenses := rfl

/-- A good raw row transforms into the expense row of the SELECT. -/
theorem rawToExpense_ok (hashE : Nat → Nat) (db : DB) (r : RawRow)
    (p : ℚ) (it : String) (hp : r.price = some p) (hit : r.item = some it) :
    rawToExpense hashE db r = .ok (transformedExpense hashE db r p it) := by
  unfold rawToExpense
  rw [hp, hit]

/-- The transform SELECT succeeds on a batch of good raw rows, and the
computed expense ids are the hashes of the raw ids. -/
theorem mapM_rawToExpense_ok (hashE : Nat → Nat) (db : DB) :
    ∀ rows : List RawRow, (∀ r ∈ rows, r.price ≠ none ∧ r.item ≠ none) →
      ∃ es : List Expense, rows.mapM (rawToExpense hashE db) = .ok es ∧
        es.map Expense.expense_id = rows.map fun r => hashE r.id := by
  intro rows
  induction rows with
  | nil => intro _; exact ⟨[], by rw [List.mapM_nil]; rfl, rfl⟩
  | cons r t ih =>
    intro hgood
    obtain ⟨hp0, hit0⟩ := hgood r (List.mem_cons_self r t)
    obtain ⟨p, hp⟩ := Option.ne_none_iff_exists'.mp hp0
    obtain ⟨it, hit⟩ := Option.ne_none_iff_exists'.mp hit0
    obtain ⟨es, hes, hkeys⟩ := ih fun y hy => hgood y (List.mem_cons_of_mem r hy)
    refine ⟨transformedExpense hashE db r p it :: es, ?_, ?_⟩
    · rw [List.mapM_cons, rawToExpense_ok hashE db r p it hp hit, except_bind_ok, hes]
      rfl
    · rw [List.map_cons, List.map_cons, hkeys]
      rfl

/-- `transform_and_load` succeeds on good raw rows, with the stated shape:
audit insert, then the expense upsert of the computed rows, then label
assignment. -/
theorem transform_and_load_ok (hashE : Nat → Nat) (db : DB)
    (h : ∀ r ∈ db.raw_source_google, r.price ≠ none ∧ r.item ≠ none) :
    ∃ es : List Expense,
      es.map Expense.expense_id = db.raw_source_google.map (fun r => hashE r.id) ∧
      transform_and_load hashE db = .ok (assignDefaultLabels
        { insertUnmapped db with
          expenses := es.foldl upsertExpense db.expenses }) := by
  obtain ⟨es, hes, hkeys⟩ := mapM_rawToExpense_ok hashE (insertUnmapped db)
    db.raw_source_google h
  refine ⟨es, hkeys, ?_⟩
  unfold transform_and_load
  rw [insertUnmapped_raw, hes, except_bind_ok]
  rfl

/-- C5: running ingestion followed by transform twice on identical input
yields the same expense row count as running it once — the second run
re-ingests the same raw rows under the same positional ids, so every
computed expense id hits the `ON CONFLICT (expense_id) DO UPDATE` branch —
and at no point are duplicate expense ids or duplicate expense-label
associations created. -/
theorem C5_reingest_idempotent (hashE : Nat → Nat) (input : List CsvRow)
    (db0 : DB) (now1 now2 : Int)
    (h0 : expenseKeysNodup db0) (h1 : elPairsNodup db0) (hp : goodInput input) :
    ∃ db1 db2,
      ingestTransform hashE input now1 db0 = .ok db1 ∧
      ingestTransform hashE input now2 db1 = .ok db2 ∧
      db2.expenses.length = db1.expenses.length ∧
      expenseKeysNodup db1 ∧ elPairsNodup db1 ∧
      expenseKeysNodup db2 ∧ elPairsNodup db2 := by
  have hgoodraw : ∀ (now : Int) (db : DB),
      ∀ r ∈ (ingest_csv input now db).raw_source_google,
        r.price ≠ none ∧ r.item ≠ none := by
    intro now db r hr
    obtain ⟨pr, hpr, rfl⟩ := List.mem_map.mp hr
    exact hp pr.2 (List.snd_mem_of_mem_enum hpr)
  have hraws : ∀ (now : Int) (db : DB),
      (ingest_csv input now db).raw_source_google.map (fun r => hashE r.id) =
        input.enum.map fun pr => hashE pr.1 := by
    intro now db
    show (input.enum.map _).map _ = _
    rw [List.map_map]
    rfl
  obtain ⟨es1, hkeys1, htr1⟩ := transform_and_load_ok hashE
    (ingest_csv input now1 db0) (hgoodraw now1 db0)
  set db1 := assignDefaultLabels
    { insertUnmapped (ingest_csv input now1 db0) with
      expenses := es1.foldl upsertExpense (ingest_csv input now1 db0).expenses }
    with hdb1
  have hk1 : expenseKeysNodup db1 :=
    foldl_upsertExpense_keys_nodup es1 db0.expenses h0
  have hpn1 : elPairsNodup db1 :=
    foldl_insertAssociation_pairs_nodup _ _ _
      (foldl_insertAssociation_pairs_nodup _ _ _ h1)
  have hpres1 : ∀ x ∈ es1, ∃ e ∈ db1.expenses, e.expense_id = x.expense_id :=
    fun x hx => foldl_upsertExpense_establishes_key es1 db0.expenses x hx
  obtain ⟨es2, hkeys2, htr2⟩ := transform_and_load_ok hashE
    (ingest_csv input now2 db1) (hgoodraw now2 db1)
  set db2 := assignDefaultLabels
    { insertUnmapped (ingest_csv input now2 db1) with
      expenses := es2.foldl upsertExpense (ingest_csv input now2 db1).expenses }
    with hdb2
  have hkk : es2.map Expense.expense_id = es1.map Expense.expense_id := by
    rw [hkeys2, hkeys1, hraws now2 db1, hraws now1 db0]
  have hpres2 : ∀ x ∈ es2, ∃ e ∈ db1.expenses, e.expense_id = x.expense_id := by
    intro x hx
    have hxk : x.expense_id ∈ es1.map Expense.expense_id := by
      rw [← hkk]
      exact List.mem_map_of_mem _ hx
    obtain ⟨y, hy, hyx⟩ := List.mem_map.mp hxk
    obtain ⟨e, he, hek⟩ := hpres1 y hy
    exact ⟨e, he, by rw [hek, hyx]⟩
  have hlen : db2.expenses.length = db1.expenses.length :=
    foldl_upsertExpense_length_of_keys_present es2 db1.expenses hpres2
  have hk2 : expenseKeysNodup db2 :=
    foldl_upsertExpense_keys_nodup es2 db1.expenses hk1
  have hpn2 : elPairsNodup db2 :=
    foldl_insertAssociation_pairs_nodup _ _ _
      (foldl_insertAssociation_pairs_nodup _ _ _ hpn1)
  exact ⟨db1, db2, htr1, htr2, hlen, hk1, hpn1, hk2, hpn2⟩

/-- Witness for C5: one concrete row ingested twice into an empty store. -/
theorem C5_reingest_idempotent_witness :
    goodInput inputOneRow ∧ expenseKeysNodup emptyDB ∧ elPairsNodup emptyDB ∧
    ∃ db1 db2,
      ingestTransform (fun n => n) inputOneRow 0 emptyDB = .ok db1 ∧
      ingestTransform (fun n => n) inputOneRow 0 db1 = .ok db2 ∧
      db2.expenses.length = db1.expenses.length ∧
      expenseKeysNodup db1 ∧ elPairsNodup db1 ∧
      expenseKeysNodup db2 ∧ elPairsNodup db2 :=
  ⟨by decide, by decide, by decide,
   C5_reingest_idempotent (fun n => n) inputOneRow emptyDB 0 0
     (by decide) (by decide) (by decide)⟩

/-- C10 counterexample: `dbPriorRun` holds the expense a previous transform
stored for raw id 0 with price 5 (and a NULL quantity, as the record API
can leave it); re-ingesting the same row with its price changed to 7 hits
the conflict branch, which refreshes `amount` but neither `quantity` nor
`unit_price` — leaving `quantity` NULL and `unit_price = 5 ≠ amount = 7`. -/
theorem C10_counterexample :
    (ingestTransform (fun n => n) inputChangedPrice 1 dbPriorRun).map
        (fun db2 => db2.expenses.map fun e => (e.quantity, e.unit_price, e.amount)) =
      .ok [(none, some 5, 7)] ∧
    some (5 : ℚ) ≠ some (7 : ℚ) := by
  constructor
  · norm_num [ingestTransform, ingest_csv, transform_and_load, insertUnmapped,
      unmappedValues, minIngestedAt, rawToExpense, transformedExpense,
      lookupCategory, upsertExpense, applyExpenseUpdate, assignDefaultLabels,
      insertAssociationIfAbsent, List.mapM_cons, List.mapM_nil, List.mapM.loop,
      except_bind_ok, dbPriorRun, inputChangedPrice, emptyDB, List.enum,
      List.enumFrom, Except.map]
  · norm_num

/-- C10 (amended): for every raw row the transform SELECT computes
`quantity = 1` and `unit_price = amount = CAST(price AS DOUBLE)`, never
reading the source quantity column; these values are stored on first
insert, while the conflict branch leaves `quantity` and `unit_price` (and
the key) of an existing row untouched, so after a re-run with a changed
price the stored `unit_price` can differ from the refreshed `amount`. -/
theorem C10_transform_quantity_unit_price (hashE : Nat → Nat) (db : DB)
    (r : RawRow) (p : ℚ) (it : String)
    (hp : r.price = some p) (hit : r.item = some it) :
    (rawToExpense hashE db r = .ok (transformedExpense hashE db r p it) ∧
      (transformedExpense hashE db r p it).quantity = some 1 ∧
      (transformedExpense hashE db r p it).unit_price =
        some (transformedExpense hashE db r p it).amount ∧
      (transformedExpense hashE db r p it).amount = p) ∧
    (∀ q : Option ℚ, rawToExpense hashE db { r with quantity := q } =
      rawToExpense hashE db r) ∧
    (∀ es : List Expense, ∀ x : Expense,
      (∃ e ∈ es, e.expense_id = x.expense_id) →
      (upsertExpense es x).map (fun e => (e.expense_id, e.quantity, e.unit_price)) =
        es.map fun e => (e.expense_id, e.quantity, e.unit_price)) := by
  refine ⟨⟨rawToExpense_ok hashE db r p it hp hit, rfl, rfl, rfl⟩, ?_, ?_⟩
  · intro q
    cases r
    rfl
  · intro es x hpres
    unfold upsertExpense
    have hk : (es.any fun old => old.expense_id = x.expense_id) = true := by
      simp only [List.any_eq_true, decide_eq_true_eq]
      exact hpres
    rw [if_pos hk, List.map_map]
    refine List.map_congr_left ?_
    intro a _
    by_cases hid : a.expense_id = x.expense_id
    · simp [hid, applyExpenseUpdate]
    · simp [hid]

/-- Witness for C10 at the concrete raw row `rawRowW`. -/
theorem C10_transform_quantity_unit_price_witness :
    rawRowW.price = some 2 ∧ rawRowW.item = some "n" ∧
    rawToExpense (fun n => n) emptyDB rawRowW =
      .ok (transformedExpense (fun n => n) emptyDB rawRowW 2 "n") ∧
    (transformedExpense (fun n => n) emptyDB rawRowW 2 "n").quantity = some 1 ∧
    rawToExpense (fun n => n) emptyDB { rawRowW with quantity := some 99 } =
      rawToExpense (fun n => n) emptyDB rawRowW := by
  have h := C10_transform_quantity_unit_price (fun n => n) emptyDB rawRowW 2 "n" rfl rfl
  exact ⟨rfl, rfl, h.1.1, h.1.2.1, h.2.1 (some 99)⟩

end SmartBudget
